import Mathlib

/-!
Verification of the SP-1200 / MPC3000 sample-format core of the
`mpc3000-snd-player` repository.

Byte buffers (`ArrayBuffer` + `DataView` + `Uint8Array` in the source) are
modelled as total functions from offsets to byte values; every write stores
the value reduced modulo 256, exactly as `DataView.setUint8`/`setUint16`/
`setUint32` and `Uint8Array` do.  JavaScript strings are modelled as lists of
character codes (the embedding of `TextEncoder().encode` is the identity on
the byte values, which is exact for the code points below 128 that the
theorems assume).  JavaScript `number` arithmetic on audio data is modelled
with exact rationals.
-/

namespace SndPlayer

/-- A byte buffer: offset ↦ byte value.  All stored values are `< 256`. -/
def Buf : Type := Nat → Nat

/-- Fresh `ArrayBuffer` contents: zero-filled. -/
def emptyBuf : Buf := fun _ => 0

/-- `DataView.setUint8` (value is wrapped modulo 256). -/
def writeByte (b : Buf) (off v : Nat) : Buf :=
  fun i => if i = off then v % 256 else b i

/-- `Uint8Array.prototype.set`: copy a byte sequence at an offset. -/
def writeBytes (b : Buf) (off : Nat) (data : List Nat) : Buf :=
  fun i => if off ≤ i ∧ i < off + data.length then data.getD (i - off) 0 % 256 else b i

/-- `DataView.setUint16(off, v, true)`: little-endian 16-bit store. -/
def writeU16LE (b : Buf) (off v : Nat) : Buf :=
  writeByte (writeByte b off (v % 256)) (off + 1) (v / 256 % 256)

/-- `DataView.setUint32(off, v, true)`: little-endian 32-bit store. -/
def writeU32LE (b : Buf) (off v : Nat) : Buf :=
  writeByte (writeByte (writeByte (writeByte b off (v % 256)) (off + 1) (v / 256 % 256))
    (off + 2) (v / 65536 % 256)) (off + 3) (v / 16777216 % 256)

/-- `DataView.setUint16(off, v, false)`: big-endian 16-bit store. -/
def writeU16BE (b : Buf) (off v : Nat) : Buf :=
  writeByte (writeByte b off (v / 256 % 256)) (off + 1) (v % 256)

/-- `DataView.setUint32(off, v, false)`: big-endian 32-bit store. -/
def writeU32BE (b : Buf) (off v : Nat) : Buf :=
  writeByte (writeByte (writeByte (writeByte b off (v / 16777216 % 256)) (off + 1) (v / 65536 % 256))
    (off + 2) (v / 256 % 256)) (off + 3) (v % 256)

/-- `DataView.getUint16(off, true)`. -/
def readU16LE (b : Buf) (off : Nat) : Nat := b off + 256 * b (off + 1)

/-- `DataView.getUint32(off, true)`. -/
def readU32LE (b : Buf) (off : Nat) : Nat :=
  b off + 256 * b (off + 1) + 65536 * b (off + 2) + 16777216 * b (off + 3)

/-- `DataView.getUint32(off, false)`. -/
def readU32BE (b : Buf) (off : Nat) : Nat :=
  16777216 * b off + 65536 * b (off + 1) + 256 * b (off + 2) + b (off + 3)

/-- `(x + 255) & ~255`: round `x` up to the next multiple of 256 (identity on multiples). -/
def alignUp256 (x : Nat) : Nat := (x + 255) / 256 * 256

/-! ## Data model (`src/app/lib/sp1200.ts`) -/

/-- Optional per-sample metadata (`SP1200SampleMetadata`). -/
structure SP1200SampleMetadata where
  tuning : Option Int
  volume : Option Nat
  loop : Option Bool
  loopStart : Option Nat
  loopEnd : Option Nat
  truncStart : Option Nat
  truncEnd : Option Nat
deriving DecidableEq

/-- `SP1200PadAssignment`.  Strings are lists of character codes; the bank is a
runtime-checked string as in the source. -/
structure SP1200PadAssignment where
  bank : String
  padNumber : Nat
  name : List Nat
  data : List Nat
  metadata : Option SP1200SampleMetadata
deriving DecidableEq

/-- `SP1200Sample`. -/
structure SP1200Sample where
  name : List Nat
  bank : String
  padNumber : Nat
  data : List Nat
  sampleRate : Nat
  bitsPerSample : Nat
  length : Nat
  metadata : Option SP1200SampleMetadata
deriving DecidableEq

/-- `SP1200Sequence` (never populated by the builder). -/
structure SP1200Sequence where
  name : List Nat
  tempo : Nat
  steps : List (List Nat)
deriving DecidableEq

/-- `SP1200Disk`. -/
structure SP1200Disk where
  samples : List SP1200Sample
  sequences : List SP1200Sequence
deriving DecidableEq

instance {e a : Type} [DecidableEq e] [DecidableEq a] : DecidableEq (Except e a) := fun x y =>
  match x, y with
  | .error e1, .error e2 =>
    if h : e1 = e2 then .isTrue (by rw [h])
    else .isFalse fun hc => h (by injection hc with h2)
  | .error _, .ok _ => .isFalse fun hc => Except.noConfusion hc
  | .ok _, .error _ => .isFalse fun hc => Except.noConfusion hc
  | .ok v1, .ok v2 =>
    if h : v1 = v2 then .isTrue (by rw [h])
    else .isFalse fun hc => h (by injection hc with h2)

def SP1200_MAGIC : Nat := 0x1200
def SP1200_SAMPLE_RATE : Nat := 26040
/-- `Math.floor(SP1200_SAMPLE_RATE * 2.5)`. -/
def SP1200_MAX_SAMPLES : Nat := 65100
def SP1200_DISK_SIZE : Nat := 824576
def SP1200_PAD_TABLE_OFFSET : Nat := 0x800
def SP1200_PAD_ENTRY_SIZE : Nat := 32
def SP1200_SAMPLE_DATA_OFFSET : Nat := 0x1000
def SP1200_SAMPLE_ALIGN : Nat := 256
def SP1200_END_MARKER : Nat := 0x8000
def SP1200_MAX_PADS : Nat := 32
def SP1200_VOLUME_MAX : Nat := 255
def SP1200_BLOCK_SIZE : Nat := 256

/-- `isValidBank`. -/
def isValidBank (b : String) : Bool := b = "A" || b = "B" || b = "C" || b = "D"

/-- `isValidPad`. -/
def isValidPad (p : Nat) : Bool := decide (1 ≤ p) && decide (p ≤ 8)

/-- `getPadKey`: the string key `bank + padNumber` of the `Map`. -/
def getPadKey (bank : String) (pad : Nat) : String := bank ++ toString pad

/-- The `{A:0,B:1,C:2,D:3}` record lookup used for the pad-entry bank byte (0 for
other strings, which never reach it). -/
def bankIdx (s : String) : Nat :=
  if s = "A" then 0 else if s = "B" then 1 else if s = "C" then 2 else if s = "D" then 3 else 0

/-- The `{A:0,B:8,C:16,D:24}` record lookup of `getPadIndex`. -/
def bankOffset (s : String) : Nat :=
  if s = "A" then 0 else if s = "B" then 8 else if s = "C" then 16 else if s = "D" then 24 else 0

/-- `getPadIndex`. -/
def getPadIndex (bank : String) (pad : Nat) : Nat := bankOffset bank + (pad - 1)

/-- Flat pad index of an assignment. -/
def padIdx (a : SP1200PadAssignment) : Nat := getPadIndex a.bank a.padNumber

/-- `['A','B','C','D'][i]` (out-of-range indexing yields `undefined` in JS). -/
def bankOfIdx (i : Nat) : String :=
  if i = 0 then "A" else if i = 1 then "B" else if i = 2 then "C" else if i = 3 then "D"
  else "undefined"

/-- The character codes below 256 removed by `String.prototype.trim`
(ECMAScript WhiteSpace and LineTerminator: TAB LF VT FF CR SP NBSP). -/
def jsWhitespace (c : Nat) : Bool :=
  c = 9 || c = 10 || c = 11 || c = 12 || c = 13 || c = 32 || c = 160

/-- `String.prototype.trim` on a list of character codes. -/
def jsTrim (l : List Nat) : List Nat :=
  ((l.dropWhile jsWhitespace).reverse.dropWhile jsWhitespace).reverse

/-- JavaScript `x || d` for an optional number `x` (0 and `undefined` are falsy). -/
def jsOrNat (o : Option Nat) (d : Nat) : Nat :=
  match o with
  | none => d
  | some v => if v = 0 then d else v

/-! ## The disk builder state (`SP1200DiskBuilderImpl`) -/

/-- The builder's `Map<string, SP1200PadAssignment>`, as an insertion-ordered
association list (`Map.set` on a present key keeps its position). -/
abbrev Builder : Type := List (String × SP1200PadAssignment)

/-- `Map.prototype.set`. -/
def mapSet (m : Builder) (k : String) (v : SP1200PadAssignment) : Builder :=
  match m with
  | [] => [(k, v)]
  | (k', v') :: t => if k' = k then (k, v) :: t else (k', v') :: mapSet t k v

/-- `Map.prototype.get`. -/
def mapGet (m : Builder) (k : String) : Option SP1200PadAssignment :=
  match m with
  | [] => none
  | (k', v') :: t => if k' = k then some v' else mapGet t k

/-- `Map.prototype.delete`. -/
def mapDelete (m : Builder) (k : String) : Builder :=
  match m with
  | [] => []
  | (k', v') :: t => if k' = k then t else (k', v') :: mapDelete t k

/-- `addSample` (throws on invalid bank or pad, else stores with the name
truncated to 12 characters). -/
def addSample (m : Builder) (a : SP1200PadAssignment) : Except String Builder :=
  if isValidBank a.bank = false then .error "Invalid bank. Must be A, B, C, or D"
  else if isValidPad a.padNumber = false then .error "Invalid pad number. Must be between 1 and 8"
  else .ok (mapSet m (getPadKey a.bank a.padNumber)
    ⟨a.bank, a.padNumber, a.name.take 12, a.data, a.metadata⟩)

/-- `removeSample`. -/
def removeSample (m : Builder) (bank : String) (pad : Nat) : Builder :=
  mapDelete m (getPadKey bank pad)

/-- `getSample`. -/
def getSample (m : Builder) (bank : String) (pad : Nat) : Option SP1200PadAssignment :=
  mapGet m (getPadKey bank pad)

/-- `getPadAssignments`: the `Map`'s values in insertion order. -/
def getPadAssignments (m : Builder) : List SP1200PadAssignment := m.map Prod.snd

/-- `clear`. -/
def clearBuilder (_ : Builder) : Builder := []

/-! ## Sorting (`createDiskImage`'s comparator) -/

/-- The comparator of `createDiskImage`: by bank (`localeCompare`), then by pad
number.  (On the stored, validated banks `localeCompare` order coincides with
`bankIdx` order.) -/
def sortRel (a b : SP1200PadAssignment) : Prop :=
  bankIdx a.bank < bankIdx b.bank ∨ (bankIdx a.bank = bankIdx b.bank ∧ a.padNumber ≤ b.padNumber)

instance : DecidableRel sortRel := fun a b => by unfold sortRel; exact inferInstance

instance : IsTotal SP1200PadAssignment sortRel :=
  ⟨by intro a b; unfold sortRel; omega⟩

instance : IsTrans SP1200PadAssignment sortRel :=
  ⟨by intro a b c; unfold sortRel; omega⟩

/-- `Array.prototype.sort` with the comparator, embedded as a sort consistent
with it (the engine's sort algorithm itself is unspecified). -/
def sortAssignments (l : List SP1200PadAssignment) : List SP1200PadAssignment :=
  List.insertionSort sortRel l

/-! ## `createDiskImage` -/

/-- `Uint8Array.prototype.set` with its bounds check (RangeError when the
source does not fit the 824,576-byte target). -/
def setBytesChecked (b : Buf) (off : Nat) (data : List Nat) : Except String Buf :=
  if off + data.length ≤ SP1200_DISK_SIZE then .ok (writeBytes b off data)
  else .error "RangeError: offset is out of bounds"

/-- `DataView.setUint16` with its bounds check. -/
def setU16Checked (b : Buf) (off v : Nat) : Except String Buf :=
  if off + 2 ≤ SP1200_DISK_SIZE then .ok (writeU16LE b off v)
  else .error "RangeError: offset is out of bounds"

/-- The 8 metadata bytes of a pad entry (note `volume || SP1200_VOLUME_MAX`,
and that the four 16-bit fields start at +0x1B/+0x1D/+0x1F/+0x21, the last two
of which extend past the 32-byte entry). -/
def writeEntryMeta (b : Buf) (e : Nat) (md : Option SP1200SampleMetadata) : Buf :=
  match md with
  | some m =>
    let b := writeByte b (e + 0x18) ((m.tuning.getD 0 + 12).emod 256).toNat
    let b := writeByte b (e + 0x19) (jsOrNat m.volume SP1200_VOLUME_MAX)
    let b := writeByte b (e + 0x1A) (if m.loop.getD false then 1 else 0)
    let b := writeU16LE b (e + 0x1B) (jsOrNat m.loopStart 0)
    let b := writeU16LE b (e + 0x1D) (jsOrNat m.loopEnd 0)
    let b := writeU16LE b (e + 0x1F) (jsOrNat m.truncStart 0)
    writeU16LE b (e + 0x21) (jsOrNat m.truncEnd 0)
  | none => writeByte b (e + 0x19) SP1200_VOLUME_MAX

/-- One 32-byte pad-table entry (name bytes via `TextEncoder`, identity on the
sub-128 code points assumed by the theorems; the recorded data offset is the
cursor value before the alignment fix-up). -/
def writePadEntry (b : Buf) (a : SP1200PadAssignment) (dataOff : Nat) : Buf :=
  let e := SP1200_PAD_TABLE_OFFSET + padIdx a * SP1200_PAD_ENTRY_SIZE
  let b := writeBytes b e (a.name.take 12)
  let b := writeU32LE b (e + 0x0C) (a.data.length / 2)
  let b := writeU32LE b (e + 0x10) dataOff
  let b := writeByte b (e + 0x14) (bankIdx a.bank)
  let b := writeByte b (e + 0x15) (a.padNumber - 1)
  writeEntryMeta b e a.metadata

/-- The mutable state of `createDiskImage`'s layout loop. -/
structure BuildState where
  buf : Buf
  cursor : Nat

/-- One iteration of `createDiskImage`'s loop: pad entry, alignment fix-up,
sample bytes, end marker, cursor advance to `(endMarker + 255) & ~255`.
(`if st.cursor % 256 ≠ 0 then alignUp256 st.cursor else st.cursor` is the
source's alignment fix-up; the fixed-up cursor is used for the data write, the
end marker and the cursor advance.) -/
def buildStep (st : BuildState) (a : SP1200PadAssignment) : Except String BuildState :=
  match setBytesChecked (writePadEntry st.buf a st.cursor)
      (if st.cursor % 256 ≠ 0 then alignUp256 st.cursor else st.cursor) a.data with
  | .error e => .error e
  | .ok b2 =>
    match setU16Checked b2
        ((if st.cursor % 256 ≠ 0 then alignUp256 st.cursor else st.cursor) + a.data.length)
        SP1200_END_MARKER with
    | .error e => .error e
    | .ok b3 =>
      .ok ⟨b3, alignUp256 ((if st.cursor % 256 ≠ 0 then alignUp256 st.cursor else st.cursor)
        + a.data.length)⟩

/-- The layout loop over the sorted assignments. -/
def buildFold (st : BuildState) : List SP1200PadAssignment → Except String BuildState
  | [] => .ok st
  | a :: t =>
    match buildStep st a with
    | .error e => .error e
    | .ok st1 => buildFold st1 t

/-- The data-cursor value after laying out a list of assignments. -/
def finalCursor (c : Nat) : List SP1200PadAssignment → Nat
  | [] => c
  | a :: t => finalCursor (alignUp256 ((if c % 256 ≠ 0 then alignUp256 c else c) + a.data.length)) t

/-- The data offset at which the `i`-th laid-out assignment is written. -/
def cursorAt (c : Nat) (l : List SP1200PadAssignment) (i : Nat) : Nat :=
  finalCursor c (l.take i)

/-- `createDiskImage`.  The fresh `ArrayBuffer` is zero-filled, so the source's
two explicit `fill(0)` calls are value-preserving no-ops; then the magic,
sample count and sequence count are stored and the sorted assignments are
laid out from offset 0x1000. -/
def createDiskImage (assignments : List SP1200PadAssignment) : Except String Buf :=
  match buildFold
      ⟨writeU16LE (writeU16LE (writeU16LE emptyBuf 0 SP1200_MAGIC) 2 assignments.length) 4 0,
        SP1200_SAMPLE_DATA_OFFSET⟩ (sortAssignments assignments) with
  | .error e => .error e
  | .ok st =>
    if SP1200_DISK_SIZE < st.cursor then .error "Disk image exceeds maximum size"
    else .ok st.buf

/-- The `createDiskImage` method: reads `this.padAssignments`, returns the
image, leaves the builder untouched. -/
def createDiskImageM (m : Builder) : Except String Buf × Builder :=
  (createDiskImage (getPadAssignments m), m)

/-! ## Parsing (`parseSP1200Disk`, `parseSP1200File`) -/

/-- The name-reading loop: up to `n` bytes, stopping at the first NUL. -/
def readNameAux (b : Buf) : Nat → Nat → List Nat
  | _, 0 => []
  | off, n + 1 => if b off = 0 then [] else b off :: readNameAux b (off + 1) n

/-- The 12-byte pad-entry name field. -/
def readName (b : Buf) (off : Nat) : List Nat := readNameAux b off 12

/-- One pad-table entry as read by `parseSP1200Disk` (the `i`-th 32-byte slot
from the start of the table). -/
def parseDiskEntry (b : Buf) (i : Nat) : SP1200Sample :=
  let e := SP1200_PAD_TABLE_OFFSET + i * SP1200_PAD_ENTRY_SIZE
  let numWords := readU32LE b (e + 0x0C)
  let sampleOffset := readU32LE b (e + 0x10)
  { name := jsTrim (readName b e)
    bank := bankOfIdx (b (e + 0x14))
    padNumber := b (e + 0x15) + 1
    data := (List.range (numWords * 2)).map fun j => b (sampleOffset + j)
    sampleRate := SP1200_SAMPLE_RATE
    bitsPerSample := 12
    length := numWords
    metadata := none }

/-- `parseSP1200Disk` (magic-checked; reads the first `numSamples` table slots;
the sequence list is always empty). -/
def parseSP1200Disk (b : Buf) : Except String SP1200Disk :=
  if readU16LE b 0 ≠ SP1200_MAGIC then .error "Invalid SP-1200 disk: wrong magic number"
  else .ok ⟨(List.range (readU16LE b 2)).map (parseDiskEntry b), []⟩

/-- `createSP1200SampleFile`: header (magic, one sample, no sequences), one
pad entry at 0x800 (name, word count, fixed data offset 0x1000), then the
sample bytes at 0x1000. -/
def createSP1200SampleFile (s : SP1200Sample) : Except String Buf :=
  setBytesChecked
    (writeU32LE
      (writeU32LE
        (writeBytes (writeU16LE (writeU16LE (writeU16LE emptyBuf 0 SP1200_MAGIC) 2 1) 4 0)
          SP1200_PAD_TABLE_OFFSET (s.name.take 12))
        (SP1200_PAD_TABLE_OFFSET + 0x0C) (s.data.length / 2))
      (SP1200_PAD_TABLE_OFFSET + 0x10) SP1200_SAMPLE_DATA_OFFSET)
    SP1200_SAMPLE_DATA_OFFSET s.data

/-- `parseSP1200File`. -/
def parseSP1200File (b : Buf) : Except String SP1200Sample :=
  if readU16LE b 0 ≠ SP1200_MAGIC then .error "Invalid SP-1200 file: wrong magic number"
  else
    let e := SP1200_PAD_TABLE_OFFSET
    let numWords := readU32LE b (e + 0x0C)
    let sampleOffset := readU32LE b (e + 0x10)
    .ok { name := jsTrim (readName b e)
          bank := "A"
          padNumber := 1
          data := (List.range (numWords * 2)).map fun j => b (sampleOffset + j)
          sampleRate := SP1200_SAMPLE_RATE
          bitsPerSample := 12
          length := numWords
          metadata := none }

/-- Placeholder assignment used as the default of list indexing. -/
def defaultPad : SP1200PadAssignment := ⟨"A", 1, [], [], none⟩

/-- What `parseSP1200Disk` can at best recover from a stored assignment. -/
def padView (a : SP1200PadAssignment) : SP1200Sample :=
  { name := a.name.take 12
    bank := a.bank
    padNumber := a.padNumber
    data := a.data
    sampleRate := SP1200_SAMPLE_RATE
    bitsPerSample := 12
    length := a.data.length / 2
    metadata := none }

/-- Build a disk from assignments, then parse it back. -/
def buildAndParse (l : List SP1200PadAssignment) : Except String SP1200Disk :=
  match createDiskImage l with
  | .error e => .error e
  | .ok b => parseSP1200Disk b

/-- Encode a single sample file, then decode it. -/
def encodeDecode (s : SP1200Sample) : Except String SP1200Sample :=
  match createSP1200SampleFile s with
  | .error e => .error e
  | .ok b => parseSP1200File b

/-- The bytes of a returned 824,576-byte `ArrayBuffer`. -/
def imageBytes (b : Buf) : List Nat := (List.range SP1200_DISK_SIZE).map b

/-- The length of the returned image, when one is returned. -/
def imageLen (r : Except String Buf) : Option Nat :=
  r.toOption.map fun b => (imageBytes b).length

/-- Whether a fallible operation returned normally. -/
def exceptOk {α : Type} : Except String α → Bool
  | .ok _ => true
  | .error _ => false

/-! ## WAV validation (`validateWavFormat`) -/

/-- The descriptor produced by `parseWavHeader`. -/
structure WavDescriptor where
  audioFormat : Nat
  channels : Nat
  sampleRate : Nat
  bitsPerSample : Nat
  dataOffset : Nat
  dataLength : Nat
deriving DecidableEq

/-- The `{isValid, error?}` verdict. -/
structure WavValidation where
  isValid : Bool
  error : Option String
deriving DecidableEq

/-- The derived sample count `dataLength / (bitsPerSample/8) / channels`
(JavaScript number division, modelled exactly over ℚ). -/
def wavNumSamples (w : WavDescriptor) : ℚ :=
  (w.dataLength : ℚ) / ((w.bitsPerSample : ℚ) / 8) / (w.channels : ℚ)

/-- `validateWavFormat` (pure; the numeric interpolations of the source's
message templates are reproduced with decimal rendering of the fields). -/
def validateWavFormat (w : WavDescriptor) : WavValidation :=
  if w.audioFormat ≠ 1 then
    ⟨false, some ("Unsupported audio format: " ++ toString w.audioFormat ++
      ". Only PCM (type 1) is supported. This may be a compressed format like MP3 or AAC.")⟩
  else if w.sampleRate < 8000 ∨ 192000 < w.sampleRate then
    ⟨false, some ("Invalid sample rate: " ++ toString w.sampleRate ++
      " Hz. Must be between 8kHz and 192kHz.")⟩
  else if ¬(w.bitsPerSample = 8 ∨ w.bitsPerSample = 16 ∨ w.bitsPerSample = 24) then
    ⟨false, some ("Unsupported bits per sample: " ++ toString w.bitsPerSample ++
      ". Only 8, 16, and 24-bit are supported.")⟩
  else if w.channels < 1 ∨ 2 < w.channels then
    ⟨false, some ("Unsupported channel count: " ++ toString w.channels ++
      ". Only mono and stereo are supported.")⟩
  else if wavNumSamples w < 100 then
    ⟨false, some "Sample too short. Minimum is 100 samples."⟩
  else ⟨true, none⟩

/-! ## SND encoding (`convertToSnd` in `src/lib/audioConverter.ts`) -/

/-- The bytes of one `Int16Array` element in the output `Blob`.  Typed arrays
serialize in platform byte order, which is little-endian on every platform the
application targets. -/
def i16ToBytesLE (v : Int) : List Nat :=
  [((v.emod 65536).toNat) % 256, ((v.emod 65536).toNat) / 256]

/-- Modelled from the spec: the big-endian 16-bit PCM encoding that §6 of the
specification asserts for the payload, for comparison with the code. -/
def i16ToBytesBE (v : Int) : List Nat :=
  [((v.emod 65536).toNat) / 256, ((v.emod 65536).toNat) % 256]

/-- `name.replace(ext, '').slice(0, 12).padEnd(12, ' ')`, as character codes. -/
def padName12 (name : List Nat) : List Nat :=
  name.take 12 ++ List.replicate (12 - (name.take 12).length) 32

/-- One of the 7 zeroed 12-byte loop records. -/
def writeLoopRecord (b : Buf) (off : Nat) : Buf :=
  writeU16BE (writeU32BE (writeU16BE (writeU32BE b off 0) (off + 4) 0) (off + 6) 0) (off + 10) 0

/-- The loop of 7 zeroed loop records at bytes 38..181. -/
def writeLoopRecords (b : Buf) : Buf :=
  (List.range 7).foldl (fun b i => writeLoopRecord b (38 + i * 12)) b

/-- The 192-byte S3000/MPC3000 header built by `convertToSnd`. -/
def sndHeaderBuf (name : List Nat) (sampleRate : Nat) (numWords : Nat) : Buf :=
  let b := writeByte emptyBuf 0 3
  let b := writeByte b 1 (if sampleRate = 44100 then 1 else 0)
  let b := writeByte b 2 60
  let b := writeBytes b 3 (padName12 name)
  let b := writeByte b 15 128
  let b := writeByte b 16 0
  let b := writeByte b 17 0
  let b := writeByte b 18 0
  let b := writeByte b 19 2
  let b := writeByte b 20 0
  let b := writeByte b 21 0
  let b := writeByte b 22 0
  let b := writeByte b 23 8
  let b := writeByte b 24 2
  let b := writeByte b 25 0
  let b := writeU32BE b 26 numWords
  let b := writeU32BE b 30 0
  let b := writeU32BE b 34 numWords
  let b := writeLoopRecords b
  let b := writeByte b 182 0
  let b := writeByte b 183 0
  let b := writeByte b 184 255
  let b := writeByte b 185 255
  let b := writeU16BE b 186 sampleRate
  let b := writeByte b 188 0
  let b := writeByte b 189 0
  let b := writeByte b 190 0
  writeByte b 191 0

/-- `convertToSnd`, from the decoded mono 16-bit PCM sequence: the 192-byte
header followed by the `Int16Array`'s buffer. -/
def convertToSnd (name : List Nat) (sampleRate : Nat) (pcm : List Int) : List Nat :=
  (List.range 192).map (sndHeaderBuf name sampleRate pcm.length) ++ pcm.flatMap i16ToBytesLE

/-! ## SP-1200 sample conversion (`convertWavToSP1200Format`) -/

/-- JavaScript `Math.round`: half-up. -/
def jsRound (q : ℚ) : Int := ⌊q + 1 / 2⌋

/-- The 12-bit quantization
`Math.min(4095, Math.max(0, Math.round((sample + 32768) * factor / 16))) & 0x0FFF`. -/
def quantize12 (factor s : ℚ) : Nat :=
  ((min 4095 (max 0 (jsRound ((s + 32768) * factor / 16)))).toNat) % 4096

/-- `DataView.setUint16(_, v, true)` as the two bytes it stores. -/
def u16leBytes (v : Nat) : List Nat := [v % 256, v / 256 % 256]

/-- The word at index `i` of a little-endian byte sequence. -/
def readWordLE (l : List Nat) (i : Nat) : Nat :=
  l.getD (2 * i) 0 + 256 * l.getD (2 * i + 1) 0

/-- `numOutputSamples` of `convertWavToSP1200Format`:
`min(floor(numInputSamples * (targetSampleRate / wav.sampleRate)), maxSamples)`. -/
def coreNumOut (numIn : Nat) (srcRate pitchFactor : ℚ) : Nat :=
  min (⌊(numIn : ℚ) * (((SP1200_SAMPLE_RATE : ℚ) * pitchFactor) / srcRate)⌋).toNat
    SP1200_MAX_SAMPLES

/-- The peak absolute input value `Math.max(...inputSamples.map(Math.abs))`
(0 for an empty input, where the source would give -Infinity). -/
def corePeak (input : List ℚ) : ℚ := input.foldr (fun s m => max |s| m) 0

/-- `peakValue > 0 ? 4095 / peakValue : 1`. -/
def coreFactor (input : List ℚ) : ℚ :=
  if 0 < corePeak input then 4095 / corePeak input else 1

/-- The core of `convertWavToSP1200Format`, from the extracted normalized input
samples.  `pitchFactor` stands for `Math.pow(2, tuning / 12)`, which is exactly
1 for `tuning = 0`.  JavaScript number arithmetic is modelled over ℚ.  The
first loop fills words `0..numOutputSamples-1`, the second fills every later
16-bit position up to the 256-byte-aligned end with the end marker; together
they tile the buffer, written here word by word. -/
def convertWavToSP1200Core (input : List ℚ) (srcRate pitchFactor : ℚ) : List Nat :=
  let targetSampleRate : ℚ := (SP1200_SAMPLE_RATE : ℚ) * pitchFactor
  let numOutputSamples := coreNumOut input.length srcRate pitchFactor
  let outputBytes :=
    (⌈((numOutputSamples * 2 : Nat) : ℚ) / (SP1200_BLOCK_SIZE : ℚ)⌉).toNat * SP1200_BLOCK_SIZE
  ((List.range (outputBytes / 2)).map fun i =>
    if i < numOutputSamples then
      quantize12 (coreFactor input)
        (input.getD (min (⌊(i : ℚ) * srcRate / targetSampleRate⌋).toNat (input.length - 1)) 0)
    else SP1200_END_MARKER).flatMap u16leBytes

/-- The samples extracted from a 1-second 44.1 kHz 16-bit mono WAV whose data
bytes are all zero: 44100 zero samples. -/
def zeroWavInput : List ℚ := List.replicate 44100 0

/-- Converting that WAV with `tuning = 0`. -/
def zeroWavOut : List Nat := convertWavToSP1200Core zeroWavInput 44100 1

/-- The `numOutputSamples` of that conversion. -/
def zeroWavNumOut : Nat := coreNumOut 44100 44100 1

theorem writeByte_at (b : Buf) (off v : Nat) : writeByte b off v off = v % 256 := by
  simp [writeByte]

theorem writeByte_ne (b : Buf) (off v i : Nat) (h : i ≠ off) : writeByte b off v i = b i := by
  simp [writeByte, h]

theorem writeBytes_out (b : Buf) (off : Nat) (data : List Nat) (i : Nat)
    (h : i < off ∨ off + data.length ≤ i) : writeBytes b off data i = b i := by
  simp only [writeBytes]
  rw [if_neg]
  omega

theorem writeBytes_in (b : Buf) (off : Nat) (data : List Nat) (i : Nat)
    (h1 : off ≤ i) (h2 : i < off + data.length) :
    writeBytes b off data i = data.getD (i - off) 0 % 256 := by
  simp only [writeBytes]
  rw [if_pos ⟨h1, h2⟩]

theorem readU16LE_writeU16LE (b : Buf) (off v : Nat) :
    readU16LE (writeU16LE b off v) off = v % 65536 := by
  have e0 : writeU16LE b off v off = v % 256 % 256 := by
    unfold writeU16LE writeByte
    rw [if_neg (by omega), if_pos rfl]
  have e1 : writeU16LE b off v (off + 1) = v / 256 % 256 % 256 := by
    unfold writeU16LE writeByte
    rw [if_pos rfl]
  unfold readU16LE
  rw [e0, e1]
  omega

theorem writeU16LE_ne (b : Buf) (off v i : Nat) (h1 : i ≠ off) (h2 : i ≠ off + 1) :
    writeU16LE b off v i = b i := by
  simp [writeU16LE, writeByte, h1, h2]

theorem readU32LE_writeU32LE (b : Buf) (off v : Nat) :
    readU32LE (writeU32LE b off v) off = v % 4294967296 := by
  have e0 : writeU32LE b off v off = v % 256 % 256 := by
    unfold writeU32LE writeByte
    rw [if_neg (by omega), if_neg (by omega), if_neg (by omega), if_pos rfl]
  have e1 : writeU32LE b off v (off + 1) = v / 256 % 256 % 256 := by
    unfold writeU32LE writeByte
    rw [if_neg (by omega), if_neg (by omega), if_pos rfl]
  have e2 : writeU32LE b off v (off + 2) = v / 65536 % 256 % 256 := by
    unfold writeU32LE writeByte
    rw [if_neg (by omega), if_pos rfl]
  have e3 : writeU32LE b off v (off + 3) = v / 16777216 % 256 % 256 := by
    unfold writeU32LE writeByte
    rw [if_pos rfl]
  unfold readU32LE
  rw [e0, e1, e2, e3]
  omega

theorem writeU32LE_ne (b : Buf) (off v i : Nat)
    (h1 : i ≠ off) (h2 : i ≠ off + 1) (h3 : i ≠ off + 2) (h4 : i ≠ off + 3) :
    writeU32LE b off v i = b i := by
  simp [writeU32LE, writeByte, h1, h2, h3, h4]


/-! ## Map lemmas -/

theorem mapGet_mapSet_self (m : Builder) (k : String) (v : SP1200PadAssignment) :
    mapGet (mapSet m k v) k = some v := by
  induction m with
  | nil => simp [mapSet, mapGet]
  | cons h t ih =>
    obtain ⟨k', v'⟩ := h
    by_cases hk : k' = k <;> simp [mapSet, mapGet, hk, ih]

theorem mapGet_mapSet_ne (m : Builder) (k k' : String) (v : SP1200PadAssignment)
    (h : k' ≠ k) : mapGet (mapSet m k v) k' = mapGet m k' := by
  induction m with
  | nil => simp [mapSet, mapGet, h, Ne.symm h]
  | cons hd t ih =>
    obtain ⟨k0, v0⟩ := hd
    by_cases hk : k0 = k
    · subst hk
      simp [mapSet, mapGet, h, Ne.symm h]
    · by_cases hk' : k0 = k' <;> simp [mapSet, mapGet, hk, hk', h, Ne.symm h, ih]

theorem mem_keys_mapSet (m : Builder) (k : String) (v : SP1200PadAssignment) (x : String) :
    x ∈ (mapSet m k v).map Prod.fst ↔ x ∈ m.map Prod.fst ∨ x = k := by
  induction m with
  | nil => simp [mapSet]
  | cons hd t ih =>
    obtain ⟨k0, v0⟩ := hd
    by_cases hk : k0 = k
    · subst hk
      simp [mapSet]
      tauto
    · simp [mapSet, hk, ih]
      tauto

theorem nodup_keys_mapSet (m : Builder) (k : String) (v : SP1200PadAssignment)
    (h : (m.map Prod.fst).Nodup) : ((mapSet m k v).map Prod.fst).Nodup := by
  induction m with
  | nil => simp [mapSet]
  | cons hd t ih =>
    obtain ⟨k0, v0⟩ := hd
    simp only [List.map_cons, List.nodup_cons] at h
    by_cases hk : k0 = k
    · subst hk
      simpa [mapSet] using h
    · simp only [mapSet, if_neg hk, List.map_cons, List.nodup_cons]
      refine ⟨?_, ih h.2⟩
      rw [mem_keys_mapSet]
      push_neg
      exact ⟨h.1, hk⟩

/-- The derived sample count of a 16-bit mono descriptor with 88200 data bytes
is at least 100. -/
theorem hundredRatByte : (100 : ℚ) ≤ wavNumSamples ⟨1, 1, 44100, 16, 44, 88200⟩ := by
  unfold wavNumSamples
  norm_num

/-! ## Claim C9: `addSample` -/

/-- C9: `addSample` throws a ValidationError if and only if the assignment's
bank is not one of A,B,C,D or its pad number is outside `[1,8]`; otherwise it
stores the assignment with its name truncated to 12 characters at the
`(bank, padNumber)` key, replacing any existing entry there, leaving every
other key unchanged and preserving key uniqueness. -/
theorem claim_C9_addSample (m : Builder) (a : SP1200PadAssignment) :
    ((∃ e, addSample m a = .error e) ↔
      (¬(a.bank = "A" ∨ a.bank = "B" ∨ a.bank = "C" ∨ a.bank = "D") ∨
        a.padNumber < 1 ∨ 8 < a.padNumber)) ∧
    (∀ m', addSample m a = .ok m' →
      getSample m' a.bank a.padNumber =
          some ⟨a.bank, a.padNumber, a.name.take 12, a.data, a.metadata⟩ ∧
        (∀ bk p, getPadKey bk p ≠ getPadKey a.bank a.padNumber →
          getSample m' bk p = getSample m bk p) ∧
        ((m.map Prod.fst).Nodup → (m'.map Prod.fst).Nodup)) := by
  constructor
  · constructor
    · rintro ⟨e, he⟩
      unfold addSample at he
      by_cases hbv : isValidBank a.bank = false
      · left
        unfold isValidBank at hbv
        simp only [Bool.or_eq_false_iff, decide_eq_false_iff_not] at hbv
        tauto
      · by_cases hpv : isValidPad a.padNumber = false
        · right
          unfold isValidPad at hpv
          simp only [Bool.and_eq_false_iff, decide_eq_false_iff_not] at hpv
          omega
        · rw [Bool.not_eq_false] at hbv hpv
          rw [hbv, hpv] at he
          simp at he
    · intro h
      unfold addSample
      by_cases hbv : isValidBank a.bank = false
      · rw [if_pos hbv]
        exact ⟨_, rfl⟩
      · rw [Bool.not_eq_false] at hbv
        have hbank : a.bank = "A" ∨ a.bank = "B" ∨ a.bank = "C" ∨ a.bank = "D" := by
          unfold isValidBank at hbv
          simp only [Bool.or_eq_true, decide_eq_true_eq] at hbv
          tauto
        have hpad : a.padNumber < 1 ∨ 8 < a.padNumber := by tauto
        have hpv : isValidPad a.padNumber = false := by
          unfold isValidPad
          simp only [Bool.and_eq_false_iff, decide_eq_false_iff_not]
          omega
        rw [if_neg (by rw [hbv]; exact Bool.noConfusion), if_pos hpv]
        exact ⟨_, rfl⟩
  · intro m' hok
    unfold addSample at hok
    by_cases hbv : isValidBank a.bank = false
    · rw [if_pos hbv] at hok
      exact absurd hok Except.noConfusion
    · by_cases hpv : isValidPad a.padNumber = false
      · rw [Bool.not_eq_false] at hbv
        rw [if_neg (by rw [hbv]; exact Bool.noConfusion), if_pos hpv] at hok
        exact absurd hok Except.noConfusion
      · rw [Bool.not_eq_false] at hbv hpv
        rw [if_neg (by rw [hbv]; exact Bool.noConfusion),
          if_neg (by rw [hpv]; exact Bool.noConfusion)] at hok
        injection hok with hok
        subst hok
        refine ⟨mapGet_mapSet_self m _ _, ?_, ?_⟩
        · intro bk p hne
          exact mapGet_mapSet_ne m _ _ _ hne
        · intro hnd
          exact nodup_keys_mapSet m _ _ hnd

/-- C9 witness: an invalid bank is rejected; a valid assignment with a
15-character name is stored truncated to 12 characters at key A1. -/
theorem claim_C9_addSample_witness :
    (∃ e, addSample [] ⟨"E", 3, [65], [1], none⟩ = .error e) ∧
    getSample [("A1", ⟨"A", 1, (List.replicate 15 66).take 12, [1, 2], none⟩)] "A" 1 =
      some ⟨"A", 1, (List.replicate 15 66).take 12, [1, 2], none⟩ :=
  ⟨(claim_C9_addSample [] ⟨"E", 3, [65], [1], none⟩).1.mpr (Or.inl (by decide)),
    ((claim_C9_addSample [] ⟨"A", 1, List.replicate 15 66, [1, 2], none⟩).2
      [("A1", ⟨"A", 1, (List.replicate 15 66).take 12, [1, 2], none⟩)] rfl).1⟩

/-! ## Claim C10: `createDiskImage` does not mutate the builder -/

/-- C10: `createDiskImage` never mutates the builder's state: the state after
the call is the state before it, `getPadAssignments` and `getSample` answer
exactly as before, and two consecutive calls on the same state produce the
same result. -/
theorem claim_C10_createDiskImage_pure (m : Builder) :
    (createDiskImageM m).2 = m ∧
    (∀ bank pad, getSample (createDiskImageM m).2 bank pad = getSample m bank pad) ∧
    getPadAssignments (createDiskImageM m).2 = getPadAssignments m ∧
    (createDiskImageM (createDiskImageM m).2).1 = (createDiskImageM m).1 :=
  ⟨rfl, fun _ _ => rfl, rfl, rfl⟩

/-! ## Claim C4: `validateWavFormat` -/

/-- C4: `validateWavFormat` accepts a parsed descriptor iff audioFormat = 1,
channels ∈ {1,2}, bitsPerSample ∈ {8,16,24}, sampleRate ∈ [8000,192000] and
the derived sample count is at least 100; every rejection carries a reason
string (the function is pure, so nothing is mutated). -/
theorem claim_C4_validateWavFormat (w : WavDescriptor) :
    ((validateWavFormat w).isValid = true ↔
      (w.audioFormat = 1 ∧ (w.channels = 1 ∨ w.channels = 2) ∧
        (w.bitsPerSample = 8 ∨ w.bitsPerSample = 16 ∨ w.bitsPerSample = 24) ∧
        8000 ≤ w.sampleRate ∧ w.sampleRate ≤ 192000 ∧
        100 ≤ wavNumSamples w)) ∧
    ((validateWavFormat w).isValid = false → (validateWavFormat w).error.isSome = true) := by
  unfold validateWavFormat
  split_ifs with h1 h2 h3 h4 h5
  · exact ⟨iff_of_false (by simp) (fun hr => h1 hr.1), fun _ => rfl⟩
  · refine ⟨iff_of_false (by simp) (fun hr => ?_), fun _ => rfl⟩
    rcases hr with ⟨_, _, _, hr1, hr2, _⟩
    rcases h2 with h2 | h2 <;> omega
  · refine ⟨iff_of_false (by simp) (fun hr => ?_), fun _ => rfl⟩
    rcases hr with ⟨_, hc, _, _, _, _⟩
    rcases h4 with h4 | h4 <;> rcases hc with hc | hc <;> omega
  · exact ⟨iff_of_false (by simp) (fun hr => absurd hr.2.2.2.2.2 (not_le.mpr h5)),
      fun _ => rfl⟩
  · have hrate := not_or.mp h2
    have hch := not_or.mp h4
    exact ⟨iff_of_true rfl ⟨not_not.mp h1, by omega, h3, by omega, by omega, not_lt.mp h5⟩,
      by intro hfalse; exact hfalse.elim⟩
  · exact ⟨iff_of_false (by simp) (fun hr => h3 hr.2.2.1), fun _ => rfl⟩

/-- C4 witness: a 44.1 kHz 16-bit mono PCM descriptor with one second of data
is accepted, and a descriptor with a compressed audio format is rejected with
a reason string. -/
theorem claim_C4_validateWavFormat_witness :
    (validateWavFormat ⟨1, 1, 44100, 16, 44, 88200⟩).isValid = true ∧
    (validateWavFormat ⟨85, 2, 44100, 16, 44, 88200⟩).error.isSome = true := by
  constructor
  · exact (claim_C4_validateWavFormat ⟨1, 1, 44100, 16, 44, 88200⟩).1.mpr
      ⟨rfl, Or.inl rfl, Or.inr (Or.inl rfl), by decide, by decide, hundredRatByte⟩
  · exact (claim_C4_validateWavFormat ⟨85, 2, 44100, 16, 44, 88200⟩).2 rfl

/-! ## Claim C3: `convertToSnd` -/

theorem padName12_length (name : List Nat) : (padName12 name).length = 12 := by
  simp only [padName12, List.length_append, List.length_replicate, List.length_take]
  omega

theorem rangeMap_getD (f : Nat → Nat) (n i : Nat) (h : i < n) :
    ((List.range n).map f).getD i 0 = f i := by
  rw [List.getD_eq_getElem?_getD]
  simp [List.getElem?_map, List.getElem?_range h]

theorem length_flatMap_i16 (pcm : List Int) :
    (pcm.flatMap i16ToBytesLE).length = 2 * pcm.length := by
  induction pcm with
  | nil => rfl
  | cons h t ih =>
    simp only [List.flatMap_cons, List.length_append, ih, i16ToBytesLE, List.length_cons,
      List.length_nil]
    omega

theorem convertToSnd_drop (name : List Nat) (rate : Nat) (pcm : List Int) :
    (convertToSnd name rate pcm).drop 192 = pcm.flatMap i16ToBytesLE := by
  unfold convertToSnd
  rw [List.drop_left' (by simp)]

theorem convertToSnd_getD_header (name : List Nat) (rate : Nat) (pcm : List Int)
    (i : Nat) (h : i < 192) :
    (convertToSnd name rate pcm).getD i 0 = sndHeaderBuf name rate pcm.length i := by
  unfold convertToSnd
  rw [List.getD_append _ _ _ _ (by simpa using h)]
  exact rangeMap_getD _ _ _ h

theorem writeLoopRecord_ne (b : Buf) (off i : Nat) (h : i < off ∨ off + 12 ≤ i) :
    writeLoopRecord b off i = b i := by
  unfold writeLoopRecord writeU32BE writeU16BE writeByte
  repeat rw [if_neg (by omega)]

theorem writeLoopRecords_ne (b : Buf) (i : Nat) (h : i < 38 ∨ 182 ≤ i) :
    writeLoopRecords b i = b i := by
  unfold writeLoopRecords
  have h7 : List.range 7 = [0, 1, 2, 3, 4, 5, 6] := rfl
  rw [h7]
  simp only [List.foldl_cons, List.foldl_nil]
  repeat rw [writeLoopRecord_ne _ _ _ (by omega)]

theorem sndHeaderBuf_fixed (name : List Nat) (rate numWords : Nat) :
    sndHeaderBuf name rate numWords 0 = 3 ∧
    sndHeaderBuf name rate numWords 15 = 128 ∧
    sndHeaderBuf name rate numWords 19 = 2 ∧
    sndHeaderBuf name rate numWords 22 = 0 ∧
    sndHeaderBuf name rate numWords 23 = 8 ∧
    sndHeaderBuf name rate numWords 24 = 2 ∧
    sndHeaderBuf name rate numWords 25 = 0 ∧
    sndHeaderBuf name rate numWords 26 = numWords / 16777216 % 256 ∧
    sndHeaderBuf name rate numWords 27 = numWords / 65536 % 256 ∧
    sndHeaderBuf name rate numWords 28 = numWords / 256 % 256 ∧
    sndHeaderBuf name rate numWords 29 = numWords % 256 := by
  refine ⟨?_, ?_, ?_, ?_, ?_, ?_, ?_, ?_, ?_, ?_, ?_⟩ <;>
    · unfold sndHeaderBuf
      norm_num [writeByte, writeU16BE, writeU32BE, writeBytes, emptyBuf, padName12_length]
      try rw [writeLoopRecords_ne _ _ (by omega)]
      try norm_num [writeByte, writeU16BE, writeU32BE, writeBytes, emptyBuf, padName12_length]
      try omega

/-- C3 counterexample: the output PCM payload is not the big-endian encoding
the claim asserts.  For the single sample 300 the bytes after the header are
`[44, 1]` (little-endian), not the big-endian `[1, 44]`. -/
theorem claim_C3_counterexample :
    (convertToSnd [] 44100 [300]).drop 192 = [44, 1] ∧
    [300].flatMap i16ToBytesBE = [1, 44] ∧ ([44, 1] : List Nat) ≠ [1, 44] := by
  refine ⟨?_, by decide, by decide⟩
  rw [convertToSnd_drop]
  decide

/-- C3 (amended): `convertToSnd` produces a 192-byte header followed by the
mono sample sequence encoded as 16-bit signed **little-endian** (platform
byte order) PCM, with the header fields per the §6 table: byte 0 = 3,
byte 15 = 128, byte 19 = 2, bytes 22–25 = (0,8,2,0), and the sample word
count as a big-endian u32 at bytes 26–29. -/
theorem claim_C3_convertToSnd (name : List Nat) (rate : Nat) (pcm : List Int)
    (hw : pcm.length < 4294967296) :
    (convertToSnd name rate pcm).length = 192 + 2 * pcm.length ∧
    (convertToSnd name rate pcm).drop 192 = pcm.flatMap i16ToBytesLE ∧
    (convertToSnd name rate pcm).getD 0 0 = 3 ∧
    (convertToSnd name rate pcm).getD 15 0 = 128 ∧
    (convertToSnd name rate pcm).getD 19 0 = 2 ∧
    ((convertToSnd name rate pcm).getD 22 0 = 0 ∧ (convertToSnd name rate pcm).getD 23 0 = 8 ∧
      (convertToSnd name rate pcm).getD 24 0 = 2 ∧ (convertToSnd name rate pcm).getD 25 0 = 0) ∧
    16777216 * (convertToSnd name rate pcm).getD 26 0 +
        65536 * (convertToSnd name rate pcm).getD 27 0 +
        256 * (convertToSnd name rate pcm).getD 28 0 +
        (convertToSnd name rate pcm).getD 29 0 = pcm.length := by
  obtain ⟨e0, e15, e19, e22, e23, e24, e25, e26, e27, e28, e29⟩ :=
    sndHeaderBuf_fixed name rate pcm.length
  refine ⟨?_, convertToSnd_drop name rate pcm, ?_, ?_, ?_, ⟨?_, ?_, ?_, ?_⟩, ?_⟩
  · unfold convertToSnd
    simp only [List.length_append, List.length_map, List.length_range, length_flatMap_i16]
  · rw [convertToSnd_getD_header name rate pcm 0 (by omega), e0]
  · rw [convertToSnd_getD_header name rate pcm 15 (by omega), e15]
  · rw [convertToSnd_getD_header name rate pcm 19 (by omega), e19]
  · rw [convertToSnd_getD_header name rate pcm 22 (by omega), e22]
  · rw [convertToSnd_getD_header name rate pcm 23 (by omega), e23]
  · rw [convertToSnd_getD_header name rate pcm 24 (by omega), e24]
  · rw [convertToSnd_getD_header name rate pcm 25 (by omega), e25]
  · rw [convertToSnd_getD_header name rate pcm 26 (by omega), e26,
      convertToSnd_getD_header name rate pcm 27 (by omega), e27,
      convertToSnd_getD_header name rate pcm 28 (by omega), e28,
      convertToSnd_getD_header name rate pcm 29 (by omega), e29]
    omega

/-- C3 witness: the amended layout at a concrete one-sample input. -/
theorem claim_C3_convertToSnd_witness :
    (convertToSnd [] 44100 [300]).length = 194 ∧
    (convertToSnd [] 44100 [300]).getD 0 0 = 3 ∧
    16777216 * (convertToSnd [] 44100 [300]).getD 26 0 +
        65536 * (convertToSnd [] 44100 [300]).getD 27 0 +
        256 * (convertToSnd [] 44100 [300]).getD 28 0 +
        (convertToSnd [] 44100 [300]).getD 29 0 = 1 := by
  obtain ⟨h1, _, h3, _, _, _, h7⟩ := claim_C3_convertToSnd [] 44100 [300] (by decide)
  exact ⟨by simpa using h1, h3, by simpa using h7⟩

/-! ## Claim C8: converting an all-zero WAV -/

theorem length_flatMap_u16 (ws : List Nat) :
    (ws.flatMap u16leBytes).length = 2 * ws.length := by
  induction ws with
  | nil => rfl
  | cons w t ih =>
    simp only [List.flatMap_cons, List.length_append, ih, u16leBytes, List.length_cons,
      List.length_nil]
    omega

theorem flatMap_u16_getD (ws : List Nat) (i : Nat) (h : i < ws.length) :
    (ws.flatMap u16leBytes).getD (2 * i) 0 = ws.getD i 0 % 256 ∧
    (ws.flatMap u16leBytes).getD (2 * i + 1) 0 = ws.getD i 0 / 256 % 256 := by
  induction ws generalizing i with
  | nil => simp at h
  | cons w t ih =>
    cases i with
    | zero => simp [u16leBytes, List.flatMap_cons]
    | succ j =>
      have h2 : 2 * (j + 1) = 2 * j + 1 + 1 := by omega
      rw [h2]
      simp only [List.flatMap_cons, u16leBytes, List.cons_append, List.nil_append,
        List.getD_cons_succ, List.getD_cons_zero]
      exact ih j (by simpa using h)

theorem readWordLE_flatMap (ws : List Nat) (i : Nat) (h : i < ws.length) :
    readWordLE (ws.flatMap u16leBytes) i = ws.getD i 0 % 65536 := by
  obtain ⟨hlo, hhi⟩ := flatMap_u16_getD ws i h
  unfold readWordLE
  rw [hlo, hhi]
  omega

theorem getD_replicate_zero (n i : Nat) : (List.replicate n (0 : ℚ)).getD i 0 = 0 := by
  rw [List.getD_eq_getElem?_getD, List.getElem?_replicate]
  split <;> rfl

theorem corePeak_zeroWav : corePeak zeroWavInput = 0 := by
  unfold corePeak zeroWavInput
  induction 44100 with
  | zero => rfl
  | succ n ih =>
    rw [List.replicate_succ, List.foldr_cons, ih]
    simp

theorem coreFactor_zeroWav : coreFactor zeroWavInput = 1 := by
  unfold coreFactor
  rw [corePeak_zeroWav]
  norm_num

theorem quantize12_one_zero : quantize12 1 0 = 2048 := by
  unfold quantize12 jsRound
  norm_num
  decide

theorem zeroWavNumOut_eq : zeroWavNumOut = 26040 := by
  unfold zeroWavNumOut coreNumOut SP1200_SAMPLE_RATE SP1200_MAX_SAMPLES
  norm_num
  decide

/-- C8: converting a 1-second 44.1 kHz 16-bit mono all-zero WAV with
tuning = 0 yields a payload in which every 16-bit little-endian word below
`numOutputSamples` holds the 12-bit value 2048, and every word from
`numOutputSamples * 2` up to the 256-byte-aligned end of the buffer holds the
end marker 0x8000 (the buffer is 52,224 bytes, i.e. 204 blocks of 256). -/
theorem claim_C8_zeroWav :
    zeroWavOut.length = 52224 ∧
    (∀ i, i < zeroWavNumOut → readWordLE zeroWavOut i = 2048) ∧
    (∀ i, zeroWavNumOut ≤ i → 2 * i + 1 < zeroWavOut.length →
      readWordLE zeroWavOut i = SP1200_END_MARKER) := by
  have hlen : zeroWavInput.length = 44100 := by
    unfold zeroWavInput
    rw [List.length_replicate]
  have hval : zeroWavNumOut = 26040 := zeroWavNumOut_eq
  have hno : coreNumOut zeroWavInput.length 44100 1 = zeroWavNumOut := by
    rw [hlen]
    unfold zeroWavNumOut
    rfl
  have houtBytes :
      ((⌈((zeroWavNumOut * 2 : Nat) : ℚ) / (SP1200_BLOCK_SIZE : ℚ)⌉).toNat * SP1200_BLOCK_SIZE)
        = 52224 := by
    rw [hval]
    unfold SP1200_BLOCK_SIZE
    have hc : (⌈((26040 * 2 : Nat) : ℚ) / ((256 : Nat) : ℚ)⌉ : Int) = 204 := by
      norm_num [Int.ceil_eq_iff]
    rw [hc]
    decide
  have hout : zeroWavOut =
      ((List.range (52224 / 2)).map fun i =>
        if i < zeroWavNumOut then
          quantize12 (coreFactor zeroWavInput)
            (zeroWavInput.getD
              (min (⌊(i : ℚ) * 44100 / ((SP1200_SAMPLE_RATE : ℚ) * 1)⌋).toNat
                (zeroWavInput.length - 1)) 0)
        else SP1200_END_MARKER).flatMap u16leBytes := by
    unfold zeroWavOut
    simp only [convertWavToSP1200Core]
    rw [hno, houtBytes]
  have h2 : (52224 : Nat) / 2 = 26112 := by norm_num
  rw [h2] at hout
  have hword : ∀ i, i < 26112 →
      (((List.range 26112).map fun i =>
        if i < zeroWavNumOut then
          quantize12 (coreFactor zeroWavInput)
            (zeroWavInput.getD
              (min (⌊(i : ℚ) * 44100 / ((SP1200_SAMPLE_RATE : ℚ) * 1)⌋).toNat
                (zeroWavInput.length - 1)) 0)
        else SP1200_END_MARKER).getD i 0)
        = if i < zeroWavNumOut then 2048 else SP1200_END_MARKER := by
    intro i hi'
    rw [rangeMap_getD _ _ _ hi']
    by_cases hc : i < zeroWavNumOut
    · rw [if_pos hc, if_pos hc, coreFactor_zeroWav]
      unfold zeroWavInput
      rw [getD_replicate_zero, quantize12_one_zero]
    · rw [if_neg hc, if_neg hc]
  have hlen2 : zeroWavOut.length = 52224 := by
    rw [hout, length_flatMap_u16]
    simp
  refine ⟨hlen2, ?_, ?_⟩
  · intro i hi
    have hi' : i < 26112 := by omega
    rw [hout, readWordLE_flatMap _ i (by simpa using hi'), hword i hi', if_pos hi]
  · intro i hge hlt
    rw [hlen2] at hlt
    have hi' : i < 26112 := by omega
    rw [hout, readWordLE_flatMap _ i (by simpa using hi'), hword i hi',
      if_neg (by omega)]
    unfold SP1200_END_MARKER
    decide

/-- C8 witness: the first word of the converted all-zero WAV is 2048 and the
word right after `numOutputSamples` is the end marker. -/
theorem claim_C8_zeroWav_witness :
    readWordLE zeroWavOut 0 = 2048 ∧ readWordLE zeroWavOut 26040 = SP1200_END_MARKER := by
  refine ⟨claim_C8_zeroWav.2.1 0 ?_, claim_C8_zeroWav.2.2 26040 ?_ ?_⟩
  · rw [zeroWavNumOut_eq]
    omega
  · rw [zeroWavNumOut_eq]
  · rw [claim_C8_zeroWav.1]
    omega

/-! ## `createDiskImage`: cursor facts and claim C5 -/

theorem buildStep_cursor (st st' : BuildState) (a : SP1200PadAssignment)
    (h : buildStep st a = .ok st') :
    st'.cursor =
      alignUp256 ((if st.cursor % 256 ≠ 0 then alignUp256 st.cursor else st.cursor)
        + a.data.length) := by
  unfold buildStep setBytesChecked setU16Checked at h
  split_ifs at h
  all_goals injection h with h
  all_goals rw [← h]
  all_goals split_ifs <;> first | rfl | omega

theorem buildStep_buf (st st' : BuildState) (a : SP1200PadAssignment)
    (hal : st.cursor % 256 = 0) (h : buildStep st a = .ok st') :
    st'.buf = writeU16LE (writeBytes (writePadEntry st.buf a st.cursor) st.cursor a.data)
        (st.cursor + a.data.length) SP1200_END_MARKER ∧
      st'.cursor = alignUp256 (st.cursor + a.data.length) ∧
      st.cursor + a.data.length + 2 ≤ SP1200_DISK_SIZE := by
  unfold buildStep setBytesChecked setU16Checked at h
  rw [if_neg (show ¬st.cursor % 256 ≠ 0 by omega)] at h
  split_ifs at h with h1 h2
  all_goals injection h with h
  refine ⟨?_, ?_, h2⟩ <;> rw [← h]

theorem buildFold_cursorEq :
    ∀ (l : List SP1200PadAssignment) (st st' : BuildState),
      buildFold st l = .ok st' → st'.cursor = finalCursor st.cursor l := by
  intro l
  induction l with
  | nil =>
    intro st st' h
    unfold buildFold at h
    injection h with h
    rw [← h]
    rfl
  | cons a t ih =>
    intro st st' h
    unfold buildFold at h
    cases hs : buildStep st a with
    | error e => rw [hs] at h; exact absurd h Except.noConfusion
    | ok st1 =>
      rw [hs] at h
      have hc := buildStep_cursor st st1 a hs
      unfold finalCursor
      rw [← hc]
      exact ih st1 st' h

theorem finalCursor_mono :
    ∀ (l : List SP1200PadAssignment) (c : Nat), c ≤ finalCursor c l := by
  intro l
  induction l with
  | nil => intro c; exact Nat.le_refl c
  | cons a t ih =>
    intro c
    unfold finalCursor
    refine Nat.le_trans ?_ (ih _)
    unfold alignUp256
    split_ifs <;> omega

theorem finalCursor_aligned :
    ∀ (l : List SP1200PadAssignment) (c : Nat), c % 256 = 0 →
      finalCursor c l % 256 = 0 := by
  intro l
  induction l with
  | nil => intro c h; exact h
  | cons a t ih =>
    intro c h
    unfold finalCursor
    refine ih _ ?_
    unfold alignUp256
    omega

/-- C5: `createDiskImage` either returns a buffer of exactly 824,576 bytes, or,
whenever the final data cursor would exceed the disk capacity, fails with an
error (the capacity overflow surfaces as the typed-array range error during
layout or as the final size check); it never returns a buffer of any other
length. -/
theorem claim_C5_diskSize (l : List SP1200PadAssignment) :
    (exceptOk (createDiskImage l) = true →
      imageLen (createDiskImage l) = some SP1200_DISK_SIZE) ∧
    (SP1200_DISK_SIZE < finalCursor SP1200_SAMPLE_DATA_OFFSET (sortAssignments l) →
      ∃ e, createDiskImage l = .error e) := by
  constructor
  · intro hok
    unfold createDiskImage at hok ⊢
    split at hok
    · exact Bool.noConfusion hok
    · next st heq =>
      split_ifs at hok with hc
      · exact Bool.noConfusion hok
      · rw [if_neg hc]
        show some ((List.range SP1200_DISK_SIZE).map st.buf).length = some SP1200_DISK_SIZE
        rw [List.length_map, List.length_range]
  · intro hbig
    unfold createDiskImage
    split
    · next e heq => exact ⟨e, rfl⟩
    · next st heq =>
      have hcur : st.cursor = finalCursor SP1200_SAMPLE_DATA_OFFSET (sortAssignments l) :=
        buildFold_cursorEq (sortAssignments l) _ st heq
      rw [if_pos (by omega)]
      exact ⟨_, rfl⟩

theorem finalCursor_single_big (a : SP1200PadAssignment)
    (h : SP1200_DISK_SIZE < a.data.length) :
    SP1200_DISK_SIZE < finalCursor SP1200_SAMPLE_DATA_OFFSET [a] := by
  unfold finalCursor
  unfold finalCursor
  unfold SP1200_DISK_SIZE at h ⊢
  unfold SP1200_SAMPLE_DATA_OFFSET alignUp256
  split_ifs <;> omega

/-- C5 witness: the empty builder yields a full-size image; a single pad
whose sample is larger than the disk fails. -/
theorem claim_C5_diskSize_witness :
    imageLen (createDiskImage []) = some SP1200_DISK_SIZE ∧
    ∃ e, createDiskImage [⟨"A", 1, [], List.replicate 824600 0, none⟩] = .error e := by
  constructor
  · exact (claim_C5_diskSize []).1 (by decide)
  · refine (claim_C5_diskSize [⟨"A", 1, [], List.replicate 824600 0, none⟩]).2 ?_
    have hs : sortAssignments [⟨"A", 1, [], List.replicate 824600 0, none⟩]
        = [⟨"A", 1, [], List.replicate 824600 0, none⟩] := rfl
    rw [hs]
    refine finalCursor_single_big _ ?_
    show SP1200_DISK_SIZE < (List.replicate 824600 (0 : Nat)).length
    rw [List.length_replicate]
    norm_num [SP1200_DISK_SIZE]

/-! ## Claim C6: insertion-order independence -/

theorem bankOffset_eq (bk : String) (h : isValidBank bk = true) :
    bankOffset bk = 8 * bankIdx bk := by
  unfold isValidBank at h
  simp only [Bool.or_eq_true, decide_eq_true_eq] at h
  rcases h with ((h | h) | h) | h <;> simp [bankOffset, bankIdx, h]

theorem bankIdx_le (s : String) : bankIdx s ≤ 3 := by
  unfold bankIdx
  split_ifs <;> omega

theorem bankIdx_inj (x y : String) (hx : isValidBank x = true) (hy : isValidBank y = true)
    (h : bankIdx x = bankIdx y) : x = y := by
  unfold isValidBank at hx hy
  simp only [Bool.or_eq_true, decide_eq_true_eq] at hx hy
  rcases hx with ((h1 | h1) | h1) | h1 <;> rcases hy with ((h2 | h2) | h2) | h2 <;>
    rw [h1, h2] at h ⊢ <;>
    first
      | rfl
      | (exfalso
         revert h
         decide)

theorem valid_key_of_padIdx_eq (a b : SP1200PadAssignment)
    (ha : isValidBank a.bank = true) (hpa : 1 ≤ a.padNumber ∧ a.padNumber ≤ 8)
    (hb : isValidBank b.bank = true) (hpb : 1 ≤ b.padNumber ∧ b.padNumber ≤ 8)
    (h : padIdx a = padIdx b) : a.bank = b.bank ∧ a.padNumber = b.padNumber := by
  unfold padIdx getPadIndex at h
  rw [bankOffset_eq a.bank ha, bankOffset_eq b.bank hb] at h
  have hia := bankIdx_le a.bank
  have hib := bankIdx_le b.bank
  have hieq : bankIdx a.bank = bankIdx b.bank ∧ a.padNumber = b.padNumber := by omega
  exact ⟨bankIdx_inj _ _ ha hb hieq.1, hieq.2⟩

theorem padIdx_lt_of_sortRel (a b : SP1200PadAssignment)
    (ha : isValidBank a.bank = true) (hpa : 1 ≤ a.padNumber ∧ a.padNumber ≤ 8)
    (hb : isValidBank b.bank = true) (hpb : 1 ≤ b.padNumber ∧ b.padNumber ≤ 8)
    (hr : sortRel a b) (hne : padIdx a ≠ padIdx b) : padIdx a < padIdx b := by
  unfold padIdx getPadIndex at hne ⊢
  rw [bankOffset_eq a.bank ha, bankOffset_eq b.bank hb] at hne ⊢
  unfold sortRel at hr
  rcases hr with hr | hr <;> omega

theorem eq_of_perm_of_pairwise_lt :
    ∀ (l1 l2 : List SP1200PadAssignment), l1.Perm l2 →
      l1.Pairwise (fun a b => padIdx a < padIdx b) →
      l2.Pairwise (fun a b => padIdx a < padIdx b) → l1 = l2 := by
  intro l1
  induction l1 with
  | nil =>
    intro l2 hp _ _
    exact (hp.symm.eq_nil).symm
  | cons a t1 ih =>
    intro l2 hp h1 h2
    cases l2 with
    | nil => exact absurd hp.eq_nil (by simp)
    | cons b t2 =>
      have hab : a = b := by
        by_contra hne
        have ha2 : a ∈ b :: t2 := hp.subset (List.mem_cons_self a t1)
        have hb1 : b ∈ a :: t1 := hp.symm.subset (List.mem_cons_self b t2)
        rcases List.mem_cons.mp ha2 with h | h
        · exact hne h
        · rcases List.mem_cons.mp hb1 with h' | h'
          · exact hne h'.symm
          · have hba := (List.pairwise_cons.mp h2).1 a h
            have hab := (List.pairwise_cons.mp h1).1 b h'
            omega
      subst hab
      have hp' := hp.cons_inv
      rw [ih t2 hp' (List.pairwise_cons.mp h1).2 (List.pairwise_cons.mp h2).2]

theorem sortAssignments_pairwise_lt (l : List SP1200PadAssignment)
    (hv : ∀ a ∈ l, isValidBank a.bank = true ∧ 1 ≤ a.padNumber ∧ a.padNumber ≤ 8)
    (hnd : (l.map padIdx).Nodup) :
    (sortAssignments l).Pairwise (fun a b => padIdx a < padIdx b) := by
  have hperm : (sortAssignments l).Perm l := List.perm_insertionSort sortRel l
  have hsorted : (sortAssignments l).Pairwise sortRel := List.sorted_insertionSort sortRel l
  have hne : (sortAssignments l).Pairwise (fun a b => padIdx a ≠ padIdx b) := by
    have hnd' : ((sortAssignments l).map padIdx).Nodup := by
      refine (hperm.map padIdx).nodup_iff.mpr hnd
    exact List.pairwise_map.mp hnd'
  refine (hsorted.and hne).imp_of_mem ?_
  intro a b hma hmb hab
  have hva := hv a (hperm.subset hma)
  have hvb := hv b (hperm.subset hmb)
  exact padIdx_lt_of_sortRel a b hva.1 hva.2 hvb.1 hvb.2 hab.1 hab.2

/-- C6: `createDiskImage` is insertion-order independent: two builders holding
the same valid pad assignments with pairwise-distinct `(bank, padNumber)` keys
(in any insertion orders, i.e. as permutations of each other) produce
byte-for-byte identical disk images, because entries are sorted by
`(bank, padNumber)` before layout. -/
theorem claim_C6_orderIndependent (l1 l2 : List SP1200PadAssignment)
    (hperm : l1.Perm l2)
    (hv : ∀ a ∈ l1, isValidBank a.bank = true ∧ 1 ≤ a.padNumber ∧ a.padNumber ≤ 8)
    (hnd : (l1.map fun a => (a.bank, a.padNumber)).Nodup) :
    createDiskImage l1 = createDiskImage l2 := by
  have hv2 : ∀ a ∈ l2, isValidBank a.bank = true ∧ 1 ≤ a.padNumber ∧ a.padNumber ≤ 8 :=
    fun a ha => hv a (hperm.symm.subset ha)
  have hndp : (l1.map padIdx).Nodup := by
    have hkey : l1.Pairwise (fun a b => ¬(a.bank = b.bank ∧ a.padNumber = b.padNumber)) := by
      have := List.pairwise_map.mp hnd
      refine this.imp ?_
      intro a b hne heq
      exact hne (by rw [heq.1, heq.2])
    refine List.pairwise_map.mpr ?_
    refine hkey.imp_of_mem ?_
    intro a b hma hmb hne heq
    exact hne (valid_key_of_padIdx_eq a b (hv a hma).1 (hv a hma).2 (hv b hmb).1 (hv b hmb).2 heq)
  have hndp2 : (l2.map padIdx).Nodup := ((hperm.map padIdx).nodup_iff).mp hndp
  have h1 := sortAssignments_pairwise_lt l1 hv hndp
  have h2 := sortAssignments_pairwise_lt l2 hv2 hndp2
  have hsp : (sortAssignments l1).Perm (sortAssignments l2) :=
    ((List.perm_insertionSort sortRel l1).trans hperm).trans
      (List.perm_insertionSort sortRel l2).symm
  have hsort : sortAssignments l1 = sortAssignments l2 :=
    eq_of_perm_of_pairwise_lt _ _ hsp h1 h2
  unfold createDiskImage
  rw [hsort, hperm.length_eq]

/-- C6 witness: adding pads A1 and B3 in the two orders yields identical
images. -/
theorem claim_C6_orderIndependent_witness :
    createDiskImage [⟨"A", 1, [65], [1, 2], none⟩, ⟨"B", 3, [66], [3, 4], none⟩] =
    createDiskImage [⟨"B", 3, [66], [3, 4], none⟩, ⟨"A", 1, [65], [1, 2], none⟩] :=
  claim_C6_orderIndependent _ _ (by decide) (by decide) (by decide)

/-! ## Frame lemmas for the layout loop -/

theorem writeEntryMeta_frame (b : Buf) (e : Nat) (md : Option SP1200SampleMetadata)
    (o : Nat) (h : o < e ∨ e + 35 ≤ o) : writeEntryMeta b e md o = b o := by
  cases md with
  | none =>
    simp only [writeEntryMeta, writeByte]
    rw [if_neg (by omega)]
  | some m =>
    simp only [writeEntryMeta, writeU16LE, writeByte]
    repeat rw [if_neg (by omega)]

theorem take12_length (name : List Nat) : (name.take 12).length ≤ 12 := by
  simp [List.length_take]

theorem writePadEntry_frame (b : Buf) (a : SP1200PadAssignment) (d : Nat) (o : Nat)
    (h : o < SP1200_PAD_TABLE_OFFSET + padIdx a * SP1200_PAD_ENTRY_SIZE ∨
      SP1200_PAD_TABLE_OFFSET + padIdx a * SP1200_PAD_ENTRY_SIZE + 35 ≤ o) :
    writePadEntry b a d o = b o := by
  have hn := take12_length a.name
  simp only [writePadEntry]
  rw [writeEntryMeta_frame _ _ _ _ (by omega)]
  simp only [writeU32LE, writeByte]
  repeat rw [if_neg (by omega)]
  exact writeBytes_out _ _ _ _ (by omega)

theorem buildStep_frame_low (st st' : BuildState) (a : SP1200PadAssignment)
    (hal : st.cursor % 256 = 0) (hge : SP1200_SAMPLE_DATA_OFFSET ≤ st.cursor)
    (h : buildStep st a = .ok st') (o : Nat) (ho : o < SP1200_SAMPLE_DATA_OFFSET)
    (he : o < SP1200_PAD_TABLE_OFFSET + padIdx a * SP1200_PAD_ENTRY_SIZE ∨
      SP1200_PAD_TABLE_OFFSET + padIdx a * SP1200_PAD_ENTRY_SIZE + 35 ≤ o) :
    st'.buf o = st.buf o := by
  obtain ⟨hbuf, _, _⟩ := buildStep_buf st st' a hal h
  rw [hbuf]
  unfold SP1200_SAMPLE_DATA_OFFSET at hge ho
  rw [writeU16LE_ne _ _ _ _ (by omega) (by omega)]
  rw [writeBytes_out _ _ _ _ (by omega)]
  exact writePadEntry_frame _ _ _ _ he

theorem buildStep_frame_data (st st' : BuildState) (a : SP1200PadAssignment)
    (hal : st.cursor % 256 = 0) (hge : SP1200_SAMPLE_DATA_OFFSET ≤ st.cursor)
    (hidx : padIdx a < 32)
    (h : buildStep st a = .ok st') (o : Nat) (ho : SP1200_SAMPLE_DATA_OFFSET ≤ o)
    (hlt : o < st.cursor) :
    st'.buf o = st.buf o := by
  obtain ⟨hbuf, _, _⟩ := buildStep_buf st st' a hal h
  rw [hbuf]
  unfold SP1200_SAMPLE_DATA_OFFSET at hge ho
  rw [writeU16LE_ne _ _ _ _ (by omega) (by omega)]
  rw [writeBytes_out _ _ _ _ (by omega)]
  refine writePadEntry_frame _ _ _ _ ?_
  unfold SP1200_PAD_TABLE_OFFSET SP1200_PAD_ENTRY_SIZE
  omega

theorem buildStep_invariants (st st' : BuildState) (a : SP1200PadAssignment)
    (hal : st.cursor % 256 = 0) (hge : SP1200_SAMPLE_DATA_OFFSET ≤ st.cursor)
    (h : buildStep st a = .ok st') :
    st'.cursor % 256 = 0 ∧ SP1200_SAMPLE_DATA_OFFSET ≤ st'.cursor ∧
      st.cursor + a.data.length ≤ st'.cursor := by
  obtain ⟨_, hcur, _⟩ := buildStep_buf st st' a hal h
  rw [hcur]
  unfold alignUp256
  refine ⟨by omega, ?_, by omega⟩
  unfold SP1200_SAMPLE_DATA_OFFSET at hge ⊢
  omega

theorem buildFold_frame :
    ∀ (l : List SP1200PadAssignment) (st st' : BuildState),
      buildFold st l = .ok st' →
      st.cursor % 256 = 0 →
      SP1200_SAMPLE_DATA_OFFSET ≤ st.cursor →
      (∀ a ∈ l, padIdx a < 32) →
      ((∀ o, SP1200_SAMPLE_DATA_OFFSET ≤ o → o < st.cursor → st'.buf o = st.buf o) ∧
       (∀ o, o < SP1200_SAMPLE_DATA_OFFSET →
         (∀ a ∈ l, o < SP1200_PAD_TABLE_OFFSET + padIdx a * SP1200_PAD_ENTRY_SIZE ∨
           SP1200_PAD_TABLE_OFFSET + padIdx a * SP1200_PAD_ENTRY_SIZE + 35 ≤ o) →
         st'.buf o = st.buf o) ∧
       st.cursor ≤ st'.cursor) := by
  intro l
  induction l with
  | nil =>
    intro st st' h _ _ _
    unfold buildFold at h
    injection h with h
    rw [← h]
    exact ⟨fun _ _ _ => rfl, fun _ _ _ => rfl, Nat.le_refl _⟩
  | cons a t ih =>
    intro st st' h hal hge hidx
    unfold buildFold at h
    cases hs : buildStep st a with
    | error e => rw [hs] at h; exact absurd h Except.noConfusion
    | ok st1 =>
      rw [hs] at h
      obtain ⟨hal1, hge1, hcur1⟩ := buildStep_invariants st st1 a hal hge hs
      obtain ⟨ihF1, ihF2, ihD⟩ := ih st1 st' h hal1 hge1 (fun x hx => hidx x (List.mem_cons_of_mem a hx))
      refine ⟨?_, ?_, ?_⟩
      · intro o ho hlt
        rw [ihF1 o ho (by omega)]
        exact buildStep_frame_data st st1 a hal hge (hidx a (List.mem_cons_self a t)) hs o ho hlt
      · intro o ho hent
        rw [ihF2 o ho (fun x hx => hent x (List.mem_cons_of_mem a hx))]
        exact buildStep_frame_low st st1 a hal hge hs o ho (hent a (List.mem_cons_self a t))
      · omega

/-! ## Data bytes and end markers in the built image -/

theorem writeU16LE_low (b : Buf) (off v : Nat) : writeU16LE b off v off = v % 256 := by
  unfold writeU16LE writeByte
  rw [if_neg (by omega), if_pos rfl]
  omega

theorem writeU16LE_high (b : Buf) (off v : Nat) :
    writeU16LE b off v (off + 1) = v / 256 % 256 := by
  unfold writeU16LE writeByte
  rw [if_pos rfl]
  omega

theorem cursorAt_zero (c : Nat) (l : List SP1200PadAssignment) : cursorAt c l 0 = c := rfl

theorem cursorAt_succ_cons (c : Nat) (a : SP1200PadAssignment)
    (t : List SP1200PadAssignment) (i : Nat) (hal : c % 256 = 0) :
    cursorAt c (a :: t) (i + 1) = cursorAt (alignUp256 (c + a.data.length)) t i := by
  unfold cursorAt
  rw [List.take_succ_cons]
  simp only [finalCursor]
  rw [if_neg (by omega)]

theorem buildFold_data :
    ∀ (l : List SP1200PadAssignment) (st st' : BuildState),
      buildFold st l = .ok st' →
      st.cursor % 256 = 0 →
      SP1200_SAMPLE_DATA_OFFSET ≤ st.cursor →
      (∀ a ∈ l, padIdx a < 32) →
      ∀ i, i < l.length →
        ((∀ j, j < (l.getD i defaultPad).data.length →
          st'.buf (cursorAt st.cursor l i + j) = (l.getD i defaultPad).data.getD j 0 % 256) ∧
         ((l.getD i defaultPad).data.length % 256 ≠ 0 →
          (l.getD i defaultPad).data.length % 256 ≠ 255 →
           st'.buf (cursorAt st.cursor l i + (l.getD i defaultPad).data.length) = 0 ∧
           st'.buf (cursorAt st.cursor l i + (l.getD i defaultPad).data.length + 1) = 128)) := by
  intro l
  induction l with
  | nil =>
    intro st st' _ _ _ _ i hi
    simp at hi
  | cons a t ih =>
    intro st st' h hal hge hidx i hi
    unfold buildFold at h
    cases hs : buildStep st a with
    | error e => rw [hs] at h; exact absurd h Except.noConfusion
    | ok st1 =>
      rw [hs] at h
      obtain ⟨hbuf, hcur, hcap⟩ := buildStep_buf st st1 a hal hs
      obtain ⟨hal1, hge1, hmono1⟩ := buildStep_invariants st st1 a hal hge hs
      obtain ⟨F1, _, _⟩ := buildFold_frame t st1 st' h hal1 hge1
        (fun x hx => hidx x (List.mem_cons_of_mem a hx))
      cases i with
      | zero =>
        rw [cursorAt_zero]
        simp only [List.getD_cons_zero]
        constructor
        · intro j hj
          rw [F1 (st.cursor + j) (by unfold SP1200_SAMPLE_DATA_OFFSET at hge ⊢; omega)
            (by rw [hcur]; unfold alignUp256; omega)]
          rw [hbuf]
          rw [writeU16LE_ne _ _ _ _ (by omega) (by omega)]
          exact writeBytes_in _ _ _ _ (by omega) (by omega) |>.trans (by rw [Nat.add_sub_cancel_left])
        · intro hm0 hm255
          have hsep : st.cursor + a.data.length + 2 ≤ st1.cursor := by
            rw [hcur]
            unfold alignUp256
            omega
          constructor
          · rw [F1 (st.cursor + a.data.length)
              (by unfold SP1200_SAMPLE_DATA_OFFSET at hge ⊢; omega) (by omega)]
            rw [hbuf, writeU16LE_low]
            unfold SP1200_END_MARKER
            decide
          · rw [F1 (st.cursor + a.data.length + 1)
              (by unfold SP1200_SAMPLE_DATA_OFFSET at hge ⊢; omega) (by omega)]
            rw [hbuf, show st.cursor + a.data.length + 1 = (st.cursor + a.data.length) + 1 from rfl,
              writeU16LE_high]
            unfold SP1200_END_MARKER
            decide
      | succ i' =>
        rw [cursorAt_succ_cons _ _ _ _ hal, ← hcur]
        simp only [List.getD_cons_succ]
        exact ih st1 st' h hal1 hge1 (fun x hx => hidx x (List.mem_cons_of_mem a hx)) i'
          (by simpa using hi)

/-! ## Reading back a pad entry -/

theorem readNameAux_congr :
    ∀ (n : Nat) (b1 b2 : Buf) (off : Nat),
      (∀ k, k < n → b1 (off + k) = b2 (off + k)) →
      readNameAux b1 off n = readNameAux b2 off n := by
  intro n
  induction n with
  | zero => intro b1 b2 off _; rfl
  | succ n ihn =>
    intro b1 b2 off hagree
    have h0 : b1 off = b2 off := by
      have := hagree 0 (by omega)
      simpa using this
    unfold readNameAux
    rw [h0]
    split_ifs
    · rfl
    · rw [ihn b1 b2 (off + 1) fun k hk => by
        have := hagree (k + 1) (by omega)
        rw [show off + 1 + k = off + (k + 1) by omega]
        exact this]

theorem readNameAux_spec :
    ∀ (n : Nat) (nm : List Nat) (b : Buf) (off : Nat),
      nm.length ≤ n →
      (∀ j, j < nm.length → b (off + j) = nm.getD j 0) →
      (∀ j, j < nm.length → nm.getD j 0 ≠ 0) →
      (nm.length < n → b (off + nm.length) = 0) →
      readNameAux b off n = nm := by
  intro n
  induction n with
  | zero =>
    intro nm b off hle _ _ _
    have hnil : nm = [] := List.eq_nil_of_length_eq_zero (by omega)
    subst hnil
    rfl
  | succ n ihn =>
    intro nm b off hle hbytes hnz hz
    cases nm with
    | nil =>
      have h0 : b off = 0 := by
        have := hz (by simp)
        simpa using this
      unfold readNameAux
      rw [if_pos h0]
    | cons c cs =>
      have hc : b off = c := by
        have := hbytes 0 (by simp)
        simpa using this
      have hcnz : c ≠ 0 := by
        have := hnz 0 (by simp)
        simpa using this
      unfold readNameAux
      rw [hc, if_neg hcnz]
      congr 1
      refine ihn cs b (off + 1) (by simpa using hle) ?_ ?_ ?_
      · intro j hj
        have := hbytes (j + 1) (by simpa using hj)
        rw [show off + 1 + j = off + (j + 1) by omega]
        simpa using this
      · intro j hj
        have := hnz (j + 1) (by simpa using hj)
        simpa using this
      · intro hlt
        have := hz (by simpa using hlt)
        rw [show off + 1 + cs.length = off + (c :: cs).length by simp; omega]
        simpa using this

theorem readU32LE_congr (b1 b2 : Buf) (o : Nat)
    (h : ∀ k, k < 4 → b1 (o + k) = b2 (o + k)) : readU32LE b1 o = readU32LE b2 o := by
  unfold readU32LE
  have h0 := h 0 (by omega)
  have h1 := h 1 (by omega)
  have h2 := h 2 (by omega)
  have h3 := h 3 (by omega)
  simp only [Nat.add_zero] at h0
  rw [h0, h1, h2, h3]

theorem readU32LE_frame_u32 (b : Buf) (off v o : Nat)
    (h : o + 4 ≤ off ∨ off + 4 ≤ o) : readU32LE (writeU32LE b off v) o = readU32LE b o := by
  unfold readU32LE
  rw [writeU32LE_ne _ _ _ _ (by omega) (by omega) (by omega) (by omega),
    writeU32LE_ne _ _ _ _ (by omega) (by omega) (by omega) (by omega),
    writeU32LE_ne _ _ _ _ (by omega) (by omega) (by omega) (by omega),
    writeU32LE_ne _ _ _ _ (by omega) (by omega) (by omega) (by omega)]

theorem readU32LE_frame_byte (b : Buf) (p v o : Nat)
    (h : p < o ∨ o + 4 ≤ p) : readU32LE (writeByte b p v) o = readU32LE b o := by
  unfold readU32LE
  rw [writeByte_ne _ _ _ _ (by omega), writeByte_ne _ _ _ _ (by omega),
    writeByte_ne _ _ _ _ (by omega), writeByte_ne _ _ _ _ (by omega)]

theorem readU32LE_frame_bytes (b : Buf) (off : Nat) (data : List Nat) (o : Nat)
    (h : o + 4 ≤ off ∨ off + data.length ≤ o) :
    readU32LE (writeBytes b off data) o = readU32LE b o := by
  unfold readU32LE
  rw [writeBytes_out _ _ _ _ (by omega), writeBytes_out _ _ _ _ (by omega),
    writeBytes_out _ _ _ _ (by omega), writeBytes_out _ _ _ _ (by omega)]

theorem padIdx_lt_32 (a : SP1200PadAssignment)
    (hb : isValidBank a.bank = true) (hp : 1 ≤ a.padNumber ∧ a.padNumber ≤ 8) :
    padIdx a < 32 := by
  unfold padIdx getPadIndex
  rw [bankOffset_eq a.bank hb]
  have := bankIdx_le a.bank
  omega

theorem writePadEntry_frame_noMeta (b : Buf) (a : SP1200PadAssignment) (d : Nat) (o : Nat)
    (hm : a.metadata = none)
    (h : o < SP1200_PAD_TABLE_OFFSET + padIdx a * SP1200_PAD_ENTRY_SIZE ∨
      SP1200_PAD_TABLE_OFFSET + padIdx a * SP1200_PAD_ENTRY_SIZE + 26 ≤ o) :
    writePadEntry b a d o = b o := by
  have hn := take12_length a.name
  simp only [writePadEntry, hm]
  simp only [writeEntryMeta, writeU32LE, writeByte]
  repeat rw [if_neg (by omega)]
  exact writeBytes_out _ _ _ _ (by omega)

theorem writePadEntry_fields (b : Buf) (a : SP1200PadAssignment) (d : Nat)
    (hm : a.metadata = none)
    (hbv : isValidBank a.bank = true) (hpv : 1 ≤ a.padNumber ∧ a.padNumber ≤ 8)
    (hd : d < 4294967296) (hlen : a.data.length / 2 < 4294967296) :
    (∀ j0, j0 < (a.name.take 12).length →
      writePadEntry b a d (SP1200_PAD_TABLE_OFFSET + padIdx a * SP1200_PAD_ENTRY_SIZE + j0)
        = (a.name.take 12).getD j0 0 % 256) ∧
    (∀ j0, (a.name.take 12).length ≤ j0 → j0 < 12 →
      writePadEntry b a d (SP1200_PAD_TABLE_OFFSET + padIdx a * SP1200_PAD_ENTRY_SIZE + j0)
        = b (SP1200_PAD_TABLE_OFFSET + padIdx a * SP1200_PAD_ENTRY_SIZE + j0)) ∧
    readU32LE (writePadEntry b a d)
        (SP1200_PAD_TABLE_OFFSET + padIdx a * SP1200_PAD_ENTRY_SIZE + 0x0C)
      = a.data.length / 2 ∧
    readU32LE (writePadEntry b a d)
        (SP1200_PAD_TABLE_OFFSET + padIdx a * SP1200_PAD_ENTRY_SIZE + 0x10) = d ∧
    writePadEntry b a d (SP1200_PAD_TABLE_OFFSET + padIdx a * SP1200_PAD_ENTRY_SIZE + 0x14)
      = bankIdx a.bank ∧
    writePadEntry b a d (SP1200_PAD_TABLE_OFFSET + padIdx a * SP1200_PAD_ENTRY_SIZE + 0x15)
      = a.padNumber - 1 := by
  have hn := take12_length a.name
  have hbi := bankIdx_le a.bank
  simp only [writePadEntry, hm, writeEntryMeta]
  refine ⟨?_, ?_, ?_, ?_, ?_, ?_⟩
  · intro j0 hj0
    rw [writeByte_ne _ _ _ _ (by omega), writeByte_ne _ _ _ _ (by omega),
      writeByte_ne _ _ _ _ (by omega),
      writeU32LE_ne _ _ _ _ (by omega) (by omega) (by omega) (by omega),
      writeU32LE_ne _ _ _ _ (by omega) (by omega) (by omega) (by omega),
      writeBytes_in _ _ _ _ (by omega) (by omega), Nat.add_sub_cancel_left]
  · intro j0 hj0 hj12
    rw [writeByte_ne _ _ _ _ (by omega), writeByte_ne _ _ _ _ (by omega),
      writeByte_ne _ _ _ _ (by omega),
      writeU32LE_ne _ _ _ _ (by omega) (by omega) (by omega) (by omega),
      writeU32LE_ne _ _ _ _ (by omega) (by omega) (by omega) (by omega),
      writeBytes_out _ _ _ _ (by omega)]
  · rw [readU32LE_frame_byte _ _ _ _ (by omega), readU32LE_frame_byte _ _ _ _ (by omega),
      readU32LE_frame_byte _ _ _ _ (by omega), readU32LE_frame_u32 _ _ _ _ (by omega),
      readU32LE_writeU32LE]
    omega
  · rw [readU32LE_frame_byte _ _ _ _ (by omega), readU32LE_frame_byte _ _ _ _ (by omega),
      readU32LE_frame_byte _ _ _ _ (by omega), readU32LE_writeU32LE]
    omega
  · rw [writeByte_ne _ _ _ _ (by omega), writeByte_ne _ _ _ _ (by omega), writeByte_at]
    omega
  · rw [writeByte_ne _ _ _ _ (by omega), writeByte_at]
    omega

theorem getD_mem :
    ∀ (l : List Nat) (j0 : Nat), j0 < l.length → l.getD j0 0 ∈ l := by
  intro l
  induction l with
  | nil => intro j0 h; simp at h
  | cons c cs ih =>
    intro j0 h
    cases j0 with
    | zero => simp
    | succ j1 =>
      rw [List.getD_cons_succ]
      exact List.mem_cons_of_mem c (ih j1 (by simpa using h))

theorem mem_exists_getD :
    ∀ (l : List SP1200PadAssignment) (x : SP1200PadAssignment), x ∈ l →
      ∃ n, n < l.length ∧ l.getD n defaultPad = x := by
  intro l
  induction l with
  | nil => intro x hx; cases hx
  | cons c cs ih =>
    intro x hx
    rcases List.mem_cons.mp hx with hx0 | hx1
    · exact ⟨0, by simp, by simp [hx0]⟩
    · obtain ⟨n, hn1, hn2⟩ := ih x hx1
      exact ⟨n + 1, by simp only [List.length_cons]; omega, by simpa using hn2⟩

theorem readU16LE_congr (b1 b2 : Buf) (o : Nat)
    (h : ∀ k, k < 2 → b1 (o + k) = b2 (o + k)) : readU16LE b1 o = readU16LE b2 o := by
  unfold readU16LE
  have h0 := h 0 (by omega)
  have h1 := h 1 (by omega)
  simp only [Nat.add_zero] at h0
  rw [h0, h1]

theorem readU16LE_frame_u16 (b : Buf) (off v o : Nat)
    (h : o + 2 ≤ off ∨ off + 2 ≤ o) : readU16LE (writeU16LE b off v) o = readU16LE b o := by
  unfold readU16LE
  rw [writeU16LE_ne _ _ _ _ (by omega) (by omega), writeU16LE_ne _ _ _ _ (by omega) (by omega)]

theorem readU16LE_frame_u32 (b : Buf) (off v o : Nat)
    (h : o + 2 ≤ off ∨ off + 4 ≤ o) : readU16LE (writeU32LE b off v) o = readU16LE b o := by
  unfold readU16LE
  rw [writeU32LE_ne _ _ _ _ (by omega) (by omega) (by omega) (by omega),
    writeU32LE_ne _ _ _ _ (by omega) (by omega) (by omega) (by omega)]

theorem readU16LE_frame_bytes (b : Buf) (off : Nat) (data : List Nat) (o : Nat)
    (h : o + 2 ≤ off ∨ off + data.length ≤ o) :
    readU16LE (writeBytes b off data) o = readU16LE b o := by
  unfold readU16LE
  rw [writeBytes_out _ _ _ _ (by omega), writeBytes_out _ _ _ _ (by omega)]

theorem buildFold_entry :
    ∀ (l : List SP1200PadAssignment) (st st' : BuildState) (j : Nat),
      buildFold st l = .ok st' →
      st.cursor % 256 = 0 →
      SP1200_SAMPLE_DATA_OFFSET ≤ st.cursor →
      st'.cursor < 4294967296 →
      (∀ a ∈ l, a.metadata = none ∧ isValidBank a.bank = true ∧
        (1 ≤ a.padNumber ∧ a.padNumber ≤ 8) ∧ a.data.length / 2 < 4294967296 ∧
        (∀ c ∈ a.name, 0 < c ∧ c < 256)) →
      (∀ i, i < l.length → padIdx (l.getD i defaultPad) = j + i) →
      j + l.length ≤ 32 →
      (∀ k, k < (32 - j) * SP1200_PAD_ENTRY_SIZE →
        st.buf (SP1200_PAD_TABLE_OFFSET + j * SP1200_PAD_ENTRY_SIZE + k) = 0) →
      ∀ i, i < l.length →
        readName st'.buf (SP1200_PAD_TABLE_OFFSET + (j + i) * SP1200_PAD_ENTRY_SIZE)
            = (l.getD i defaultPad).name.take 12 ∧
        readU32LE st'.buf (SP1200_PAD_TABLE_OFFSET + (j + i) * SP1200_PAD_ENTRY_SIZE + 0x0C)
            = (l.getD i defaultPad).data.length / 2 ∧
        readU32LE st'.buf (SP1200_PAD_TABLE_OFFSET + (j + i) * SP1200_PAD_ENTRY_SIZE + 0x10)
            = cursorAt st.cursor l i ∧
        st'.buf (SP1200_PAD_TABLE_OFFSET + (j + i) * SP1200_PAD_ENTRY_SIZE + 0x14)
            = bankIdx (l.getD i defaultPad).bank ∧
        st'.buf (SP1200_PAD_TABLE_OFFSET + (j + i) * SP1200_PAD_ENTRY_SIZE + 0x15)
            = (l.getD i defaultPad).padNumber - 1 := by
  intro l
  induction l with
  | nil => intro st st' j _ _ _ _ _ _ _ _ i hi; simp at hi
  | cons a t ih =>
    intro st st' j h hal hge hlt32 hprops hcont hle32 hzero i hi
    unfold buildFold at h
    cases hs : buildStep st a with
    | error e => rw [hs] at h; exact absurd h Except.noConfusion
    | ok st1 =>
      rw [hs] at h
      obtain ⟨hbuf, hcur, hcap⟩ := buildStep_buf st st1 a hal hs
      obtain ⟨hal1, hge1, hmono1⟩ := buildStep_invariants st st1 a hal hge hs
      have hlc : (a :: t).length = t.length + 1 := List.length_cons a t
      have hge4096 : 4096 ≤ st.cursor := hge
      obtain ⟨hap_meta, hap_bank, hap_pad, hap_len, hap_name⟩ :=
        hprops a (List.mem_cons_self a t)
      have hpa : padIdx a = j := by
        have := hcont 0 (by simp)
        simpa using this
      have hidx_t : ∀ x ∈ t, j + 1 ≤ padIdx x ∧ padIdx x < 32 := by
        intro x hx
        obtain ⟨n, hn1, hn2⟩ := mem_exists_getD t x hx
        have := hcont (n + 1) (by simp only [List.length_cons]; omega)
        rw [List.getD_cons_succ, hn2] at this
        omega
      obtain ⟨F1, F2, Fmono⟩ := buildFold_frame t st1 st' h hal1 hge1
        (fun x hx => (hidx_t x hx).2)
      cases i with
      | zero =>
        have hjlt : j < 32 := by omega
        have hcap32 : st.cursor < 4294967296 := by omega
        obtain ⟨Wname_in, Wname_out, Wcount, Woff, Wbank, Wpad⟩ :=
          writePadEntry_fields st.buf a st.cursor hap_meta hap_bank hap_pad hcap32 hap_len
        have hwin : ∀ o, SP1200_PAD_TABLE_OFFSET + padIdx a * SP1200_PAD_ENTRY_SIZE ≤ o →
            o < SP1200_PAD_TABLE_OFFSET + padIdx a * SP1200_PAD_ENTRY_SIZE + 26 →
            st'.buf o = writePadEntry st.buf a st.cursor o := by
          intro o ho1 ho2
          unfold SP1200_PAD_TABLE_OFFSET SP1200_PAD_ENTRY_SIZE at ho1 ho2
          rw [hpa] at ho1 ho2
          rw [F2 o (by unfold SP1200_SAMPLE_DATA_OFFSET; omega)
            (fun x hx => Or.inl (by
              have hx1 := (hidx_t x hx).1
              unfold SP1200_PAD_TABLE_OFFSET SP1200_PAD_ENTRY_SIZE
              omega))]
          rw [hbuf]
          rw [writeU16LE_ne _ _ _ _ (by omega) (by omega),
            writeBytes_out _ _ _ _ (Or.inl (by omega))]
        simp only [List.getD_cons_zero, Nat.add_zero]
        rw [← hpa]
        refine ⟨?_, ?_, ?_, ?_, ?_⟩
        · unfold readName
          rw [readNameAux_congr 12 st'.buf (writePadEntry st.buf a st.cursor) _
            (fun k hk => hwin _ (by omega) (by omega))]
          refine readNameAux_spec 12 (a.name.take 12) _ _ (take12_length a.name) ?_ ?_ ?_
          · intro j0 hj0
            rw [Wname_in j0 hj0]
            refine Nat.mod_eq_of_lt ?_
            exact (hap_name _ (List.mem_of_mem_take (getD_mem _ j0 hj0))).2
          · intro j0 hj0
            have := (hap_name _ (List.mem_of_mem_take (getD_mem _ j0 hj0))).1
            omega
          · intro hlt12
            rw [Wname_out _ (Nat.le_refl _) hlt12]
            rw [hpa]
            exact hzero (a.name.take 12).length (by unfold SP1200_PAD_ENTRY_SIZE; omega)
        · rw [readU32LE_congr st'.buf (writePadEntry st.buf a st.cursor) _
            (fun k hk => hwin _ (by omega) (by omega))]
          exact Wcount
        · rw [readU32LE_congr st'.buf (writePadEntry st.buf a st.cursor) _
            (fun k hk => hwin _ (by omega) (by omega))]
          rw [cursorAt_zero]
          exact Woff
        · rw [hwin _ (by omega) (by omega)]
          exact Wbank
        · rw [hwin _ (by omega) (by omega)]
          exact Wpad
      | succ i2 =>
        have hzero1 : ∀ k, k < (32 - (j + 1)) * SP1200_PAD_ENTRY_SIZE →
            st1.buf (SP1200_PAD_TABLE_OFFSET + (j + 1) * SP1200_PAD_ENTRY_SIZE + k) = 0 := by
          intro k hk
          unfold SP1200_PAD_ENTRY_SIZE at hk
          rw [hbuf]
          rw [writeU16LE_ne _ _ _ _
              (by unfold SP1200_PAD_TABLE_OFFSET SP1200_PAD_ENTRY_SIZE; omega)
              (by unfold SP1200_PAD_TABLE_OFFSET SP1200_PAD_ENTRY_SIZE; omega),
            writeBytes_out _ _ _ _
              (Or.inl (by unfold SP1200_PAD_TABLE_OFFSET SP1200_PAD_ENTRY_SIZE; omega)),
            writePadEntry_frame_noMeta _ _ _ _ hap_meta (Or.inr (by
              rw [hpa]
              unfold SP1200_PAD_TABLE_OFFSET SP1200_PAD_ENTRY_SIZE
              omega))]
          rw [show SP1200_PAD_TABLE_OFFSET + (j + 1) * SP1200_PAD_ENTRY_SIZE + k
              = SP1200_PAD_TABLE_OFFSET + j * SP1200_PAD_ENTRY_SIZE
                + (SP1200_PAD_ENTRY_SIZE + k) by
            unfold SP1200_PAD_TABLE_OFFSET SP1200_PAD_ENTRY_SIZE; ring]
          exact hzero (SP1200_PAD_ENTRY_SIZE + k) (by unfold SP1200_PAD_ENTRY_SIZE; omega)
        have hmain := ih st1 st' (j + 1) h hal1 hge1 hlt32
          (fun x hx => hprops x (List.mem_cons_of_mem a hx))
          (fun i3 hi3 => by
            have := hcont (i3 + 1) (by simp only [List.length_cons]; omega)
            rw [List.getD_cons_succ] at this
            omega)
          (by omega) hzero1 i2 (by simp only [List.length_cons] at hi; omega)
        simp only [List.getD_cons_succ]
        rw [show j + (i2 + 1) = (j + 1) + i2 by omega,
          cursorAt_succ_cons _ _ _ _ hal, ← hcur]
        exact hmain

/-! ## Single-sample file round trip (claim C7) -/

theorem range_map_eq_of_getD (n : Nat) (f : Nat → Nat) (d : List Nat) (hn : d.length = n)
    (h : ∀ j, j < n → f j = d.getD j 0) : (List.range n).map f = d := by
  refine List.ext_getElem (by simp [hn]) ?_
  intro i h1 h2
  simp only [List.getElem_map, List.getElem_range]
  rw [h i (by simpa using h1), List.getD_eq_getElem?_getD, List.getElem?_eq_getElem h2]
  rfl

theorem bankOfIdx_bankIdx (s : String) (h : isValidBank s = true) :
    bankOfIdx (bankIdx s) = s := by
  unfold isValidBank at h
  rcases (by simpa using h : ((s = "A" ∨ s = "B") ∨ s = "C") ∨ s = "D")
    with ((h | h) | h) | h <;> subst h <;> rfl

/-- C7 (counterexample): `parseSP1200File ∘ createSP1200SampleFile` is not the
identity even on short-named, positive-length samples: the file format stores
no bank, pad number, sample rate or bit depth, so a sample on bank B pad 3
decodes to the constants bank A, pad 1, 26,040 Hz, 12 bits. -/
theorem claim_C7_counterexample :
    encodeDecode ⟨[120], "B", 3, [1, 2], 44100, 16, 1, none⟩
      = .ok ⟨[120], "A", 1, [1, 2], 26040, 12, 1, none⟩ ∧
    (⟨[120], "A", 1, [1, 2], 26040, 12, 1, none⟩ : SP1200Sample)
      ≠ ⟨[120], "B", 3, [1, 2], 44100, 16, 1, none⟩ := by
  decide

/-- C7 (amended): the encode/decode round trip is the identity exactly on
samples already in the decoder's normal form: bank A, pad 1, the fixed
26,040 Hz / 12-bit parameters, `length = data.length / 2`, no metadata, an
untrimmable name of at most 12 nonzero ASCII codes, and an even number of
in-range data bytes that fit the data area. -/
theorem claim_C7_roundtrip (s : SP1200Sample)
    (hbank : s.bank = "A") (hpad : s.padNumber = 1)
    (hrate : s.sampleRate = SP1200_SAMPLE_RATE) (hbits : s.bitsPerSample = 12)
    (hlen : s.length = s.data.length / 2) (hmeta : s.metadata = none)
    (hname : s.name.length ≤ 12)
    (hchars : ∀ c ∈ s.name, 0 < c ∧ c < 128)
    (htrim : jsTrim s.name = s.name)
    (heven : s.data.length % 2 = 0) (hbytes : ∀ x ∈ s.data, x < 256)
    (hfit : s.data.length ≤ 820480) :
    encodeDecode s = .ok s := by
  have htake : s.name.take 12 = s.name := List.take_of_length_le hname
  have hTe : SP1200_PAD_TABLE_OFFSET = 2048 := rfl
  have hSe : SP1200_SAMPLE_DATA_OFFSET = 4096 := rfl
  unfold encodeDecode createSP1200SampleFile setBytesChecked
  rw [if_pos (show SP1200_SAMPLE_DATA_OFFSET + s.data.length ≤ SP1200_DISK_SIZE by
    unfold SP1200_SAMPLE_DATA_OFFSET SP1200_DISK_SIZE; omega)]
  show parseSP1200File
      (writeBytes
        (writeU32LE
          (writeU32LE
            (writeBytes (writeU16LE (writeU16LE (writeU16LE emptyBuf 0 SP1200_MAGIC) 2 1) 4 0)
              SP1200_PAD_TABLE_OFFSET (s.name.take 12))
            (SP1200_PAD_TABLE_OFFSET + 0x0C) (s.data.length / 2))
          (SP1200_PAD_TABLE_OFFSET + 0x10) SP1200_SAMPLE_DATA_OFFSET)
        SP1200_SAMPLE_DATA_OFFSET s.data) = _
  rw [htake]
  have hmagic : readU16LE
      (writeBytes
        (writeU32LE
          (writeU32LE
            (writeBytes (writeU16LE (writeU16LE (writeU16LE emptyBuf 0 SP1200_MAGIC) 2 1) 4 0)
              SP1200_PAD_TABLE_OFFSET s.name)
            (SP1200_PAD_TABLE_OFFSET + 0x0C) (s.data.length / 2))
          (SP1200_PAD_TABLE_OFFSET + 0x10) SP1200_SAMPLE_DATA_OFFSET)
        SP1200_SAMPLE_DATA_OFFSET s.data) 0 = SP1200_MAGIC := by
    rw [readU16LE_frame_bytes _ _ _ _ (Or.inl (by omega)),
      readU16LE_frame_u32 _ _ _ _ (Or.inl (by omega)),
      readU16LE_frame_u32 _ _ _ _ (Or.inl (by omega)),
      readU16LE_frame_bytes _ _ _ _ (Or.inl (by omega)),
      readU16LE_frame_u16 _ _ _ _ (Or.inl (by omega)),
      readU16LE_frame_u16 _ _ _ _ (Or.inl (by omega)),
      readU16LE_writeU16LE]
    decide
  simp only [parseSP1200File]
  rw [if_neg (by rw [hmagic]; exact fun hne => hne rfl)]
  have hwords : readU32LE
      (writeBytes
        (writeU32LE
          (writeU32LE
            (writeBytes (writeU16LE (writeU16LE (writeU16LE emptyBuf 0 SP1200_MAGIC) 2 1) 4 0)
              SP1200_PAD_TABLE_OFFSET s.name)
            (SP1200_PAD_TABLE_OFFSET + 0x0C) (s.data.length / 2))
          (SP1200_PAD_TABLE_OFFSET + 0x10) SP1200_SAMPLE_DATA_OFFSET)
        SP1200_SAMPLE_DATA_OFFSET s.data) (SP1200_PAD_TABLE_OFFSET + 0x0C)
      = s.data.length / 2 := by
    rw [readU32LE_frame_bytes _ _ _ _ (Or.inl (by omega)),
      readU32LE_frame_u32 _ _ _ _ (Or.inl (by omega)),
      readU32LE_writeU32LE]
    omega
  have hoff : readU32LE
      (writeBytes
        (writeU32LE
          (writeU32LE
            (writeBytes (writeU16LE (writeU16LE (writeU16LE emptyBuf 0 SP1200_MAGIC) 2 1) 4 0)
              SP1200_PAD_TABLE_OFFSET s.name)
            (SP1200_PAD_TABLE_OFFSET + 0x0C) (s.data.length / 2))
          (SP1200_PAD_TABLE_OFFSET + 0x10) SP1200_SAMPLE_DATA_OFFSET)
        SP1200_SAMPLE_DATA_OFFSET s.data) (SP1200_PAD_TABLE_OFFSET + 0x10)
      = SP1200_SAMPLE_DATA_OFFSET := by
    rw [readU32LE_frame_bytes _ _ _ _ (Or.inl (by omega)),
      readU32LE_writeU32LE]
    omega
  have hreadname : readName
      (writeBytes
        (writeU32LE
          (writeU32LE
            (writeBytes (writeU16LE (writeU16LE (writeU16LE emptyBuf 0 SP1200_MAGIC) 2 1) 4 0)
              SP1200_PAD_TABLE_OFFSET s.name)
            (SP1200_PAD_TABLE_OFFSET + 0x0C) (s.data.length / 2))
          (SP1200_PAD_TABLE_OFFSET + 0x10) SP1200_SAMPLE_DATA_OFFSET)
        SP1200_SAMPLE_DATA_OFFSET s.data) SP1200_PAD_TABLE_OFFSET = s.name := by
    unfold readName
    rw [readNameAux_congr 12 _
      (writeBytes (writeU16LE (writeU16LE (writeU16LE emptyBuf 0 SP1200_MAGIC) 2 1) 4 0)
        SP1200_PAD_TABLE_OFFSET s.name) _
      (fun k hk => by
        rw [writeBytes_out _ _ _ _ (Or.inl (by omega)),
          writeU32LE_ne _ _ _ _ (by omega) (by omega) (by omega) (by omega),
          writeU32LE_ne _ _ _ _ (by omega) (by omega) (by omega) (by omega)])]
    refine readNameAux_spec 12 s.name _ _ hname ?_ ?_ ?_
    · intro j0 hj0
      rw [writeBytes_in _ _ _ _ (by omega) (by omega), Nat.add_sub_cancel_left]
      refine Nat.mod_eq_of_lt ?_
      have := (hchars _ (getD_mem _ j0 hj0)).2
      omega
    · intro j0 hj0
      have := (hchars _ (getD_mem _ j0 hj0)).1
      omega
    · intro hlt12
      rw [writeBytes_out _ _ _ _ (Or.inr (by omega)),
        writeU16LE_ne _ _ _ _ (by omega) (by omega),
        writeU16LE_ne _ _ _ _ (by omega) (by omega),
        writeU16LE_ne _ _ _ _ (by omega) (by omega)]
      rfl
  rw [hwords, hoff, hreadname, htrim]
  have hdata : (List.range s.data.length).map
      (fun j => writeBytes
        (writeU32LE
          (writeU32LE
            (writeBytes (writeU16LE (writeU16LE (writeU16LE emptyBuf 0 SP1200_MAGIC) 2 1) 4 0)
              SP1200_PAD_TABLE_OFFSET s.name)
            (SP1200_PAD_TABLE_OFFSET + 0x0C) (s.data.length / 2))
          (SP1200_PAD_TABLE_OFFSET + 0x10) SP1200_SAMPLE_DATA_OFFSET)
        SP1200_SAMPLE_DATA_OFFSET s.data (SP1200_SAMPLE_DATA_OFFSET + j)) = s.data := by
    refine range_map_eq_of_getD _ _ s.data rfl ?_
    intro j hj
    rw [writeBytes_in _ _ _ _ (by omega) (by omega), Nat.add_sub_cancel_left]
    exact Nat.mod_eq_of_lt (hbytes _ (getD_mem _ j hj))
  rw [show s.data.length / 2 * 2 = s.data.length by omega, hdata]
  rw [show s = (⟨s.name, s.bank, s.padNumber, s.data, s.sampleRate, s.bitsPerSample,
    s.length, s.metadata⟩ : SP1200Sample) from rfl, hbank, hpad, hrate, hbits, hlen, hmeta]

/-- C7 witness: a concrete normal-form sample round-trips. -/
theorem claim_C7_roundtrip_witness :
    encodeDecode ⟨[120], "A", 1, [1, 2], 26040, 12, 1, none⟩
      = .ok ⟨[120], "A", 1, [1, 2], 26040, 12, 1, none⟩ :=
  claim_C7_roundtrip ⟨[120], "A", 1, [1, 2], 26040, 12, 1, none⟩ rfl rfl rfl rfl (by decide)
    rfl (by decide) (by decide) (by decide) (by decide) (by decide) (by decide)

/-! ## Disk round trip (claim C1) -/

theorem getD_mem_assign :
    ∀ (l : List SP1200PadAssignment) (i : Nat), i < l.length → l.getD i defaultPad ∈ l := by
  intro l
  induction l with
  | nil => intro i h; simp at h
  | cons c cs ih =>
    intro i h
    cases i with
    | zero => simp
    | succ i1 =>
      rw [List.getD_cons_succ]
      exact List.mem_cons_of_mem c (ih i1 (by simpa using h))

theorem buildFold_len_le :
    ∀ (l : List SP1200PadAssignment) (st st' : BuildState),
      buildFold st l = .ok st' → st.cursor % 256 = 0 → SP1200_SAMPLE_DATA_OFFSET ≤ st.cursor →
      ∀ a ∈ l, a.data.length + 2 ≤ SP1200_DISK_SIZE := by
  intro l
  induction l with
  | nil => intro st st' _ _ _ a ha; cases ha
  | cons a t ih =>
    intro st st' h hal hge x hx
    unfold buildFold at h
    cases hs : buildStep st a with
    | error e => rw [hs] at h; exact absurd h Except.noConfusion
    | ok st1 =>
      rw [hs] at h
      obtain ⟨_, _, hcap⟩ := buildStep_buf st st1 a hal hs
      obtain ⟨hal1, hge1, _⟩ := buildStep_invariants st st1 a hal hge hs
      rcases List.mem_cons.mp hx with hx0 | hx1
      · subst hx0; omega
      · exact ih st1 st' h hal1 hge1 x hx1

theorem pairwise_lt_of_contig (l : List SP1200PadAssignment)
    (hcont : ∀ i, i < l.length → padIdx (l.getD i defaultPad) = i) :
    l.Pairwise (fun a b => padIdx a < padIdx b) := by
  rw [List.pairwise_iff_getElem]
  intro i j hi hj hij
  have hgi : l.getD i defaultPad = l[i] := by
    rw [List.getD_eq_getElem?_getD, List.getElem?_eq_getElem hi]
    rfl
  have hgj : l.getD j defaultPad = l[j] := by
    rw [List.getD_eq_getElem?_getD, List.getElem?_eq_getElem hj]
    rfl
  have h1 := hcont i hi
  have h2 := hcont j hj
  rw [hgi] at h1
  rw [hgj] at h2
  omega

theorem range_map_eq_of_view (n : Nat) (f : Nat → SP1200Sample) (l : List SP1200PadAssignment)
    (hn : l.length = n)
    (h : ∀ i, i < n → f i = padView (l.getD i defaultPad)) :
    (List.range n).map f = l.map padView := by
  refine List.ext_getElem (by simp [hn]) ?_
  intro i h1 h2
  simp only [List.getElem_map, List.getElem_range]
  rw [h i (by simpa using h1)]
  congr 1
  rw [List.getD_eq_getElem?_getD, List.getElem?_eq_getElem (by simp only [List.length_map] at h2; exact h2)]
  rfl

/-- C1 (counterexample): the round trip is not slot-independent.  A single
assignment on bank A pad 2 occupies pad-table slot 1, but `parseSP1200Disk`
reads the first `numSamples` slots starting at slot 0, so it returns the
untouched slot 0 (an empty bank-A pad-1 sample) instead of the stored
assignment. -/
theorem claim_C1_counterexample :
    buildAndParse [⟨"A", 2, [120], [1, 2], none⟩]
      = .ok ⟨[⟨[], "A", 1, [], 26040, 12, 0, none⟩], []⟩ ∧
    (⟨[], "A", 1, [], 26040, 12, 0, none⟩ : SP1200Sample)
      ≠ padView ⟨"A", 2, [120], [1, 2], none⟩ := by
  decide

/-- C1 (amended): the round trip does recover exactly the stored assignments,
with names truncated to 12 characters, provided the occupied slots form a
contiguous prefix A1, A2, … of the pad table (`padIdx` of the `i`-th
assignment is `i`), the assignments are valid and metadata-free, names are
untrimmable nonzero ASCII, and the data is an even number of bytes < 256. -/
theorem claim_C1_roundtrip (l : List SP1200PadAssignment)
    (hprops : ∀ a ∈ l, a.metadata = none ∧ isValidBank a.bank = true ∧
      (1 ≤ a.padNumber ∧ a.padNumber ≤ 8) ∧
      (∀ c ∈ a.name, 0 < c ∧ c < 128) ∧ jsTrim (a.name.take 12) = a.name.take 12 ∧
      a.data.length % 2 = 0 ∧ (∀ x ∈ a.data, x < 256))
    (hcont : ∀ i, i < l.length → padIdx (l.getD i defaultPad) = i)
    (hok : exceptOk (buildAndParse l) = true) :
    buildAndParse l = .ok ⟨l.map padView, []⟩ := by
  have hTe : SP1200_PAD_TABLE_OFFSET = 2048 := rfl
  have hSe : SP1200_SAMPLE_DATA_OFFSET = 4096 := rfl
  have hv : ∀ a ∈ l, isValidBank a.bank = true ∧ 1 ≤ a.padNumber ∧ a.padNumber ≤ 8 :=
    fun a ha => ⟨(hprops a ha).2.1, (hprops a ha).2.2.1⟩
  have hlen32 : l.length ≤ 32 := by
    by_contra hlen
    have h32 : (32 : Nat) < l.length := by omega
    have hp := hcont 32 h32
    have := padIdx_lt_32 (l.getD 32 defaultPad)
      (hv _ (getD_mem_assign l 32 h32)).1 (hv _ (getD_mem_assign l 32 h32)).2
    omega
  have hidx_all : ∀ a ∈ l, padIdx a < 32 := by
    intro a ha
    obtain ⟨n, hn1, hn2⟩ := mem_exists_getD l a ha
    have := hcont n hn1
    rw [hn2] at this
    omega
  have hpair := pairwise_lt_of_contig l hcont
  have hnd : (l.map padIdx).Nodup :=
    List.pairwise_map.mpr (hpair.imp fun h => Nat.ne_of_lt h)
  have hsort : sortAssignments l = l :=
    eq_of_perm_of_pairwise_lt _ _ (List.perm_insertionSort sortRel l)
      (sortAssignments_pairwise_lt l hv hnd) hpair
  obtain ⟨st, hfold, hcap⟩ : ∃ st,
      buildFold ⟨writeU16LE (writeU16LE (writeU16LE emptyBuf 0 SP1200_MAGIC) 2 l.length) 4 0,
        SP1200_SAMPLE_DATA_OFFSET⟩ l = .ok st ∧ ¬ SP1200_DISK_SIZE < st.cursor := by
    unfold buildAndParse createDiskImage at hok
    rw [hsort] at hok
    cases hfold : buildFold
        ⟨writeU16LE (writeU16LE (writeU16LE emptyBuf 0 SP1200_MAGIC) 2 l.length) 4 0,
          SP1200_SAMPLE_DATA_OFFSET⟩ l with
    | error e =>
      rw [hfold] at hok
      exact absurd hok Bool.noConfusion
    | ok st =>
      rw [hfold] at hok
      refine ⟨st, rfl, ?_⟩
      intro hlt
      have hok2 : exceptOk (match (if SP1200_DISK_SIZE < st.cursor
          then (Except.error "Disk image exceeds maximum size" : Except String Buf)
          else Except.ok st.buf) with
        | Except.error e => (Except.error e : Except String SP1200Disk)
        | Except.ok b => parseSP1200Disk b) = true := hok
      rw [if_pos hlt] at hok2
      exact absurd hok2 Bool.noConfusion
  have hal0 : (⟨writeU16LE (writeU16LE (writeU16LE emptyBuf 0 SP1200_MAGIC) 2 l.length) 4 0,
      SP1200_SAMPLE_DATA_OFFSET⟩ : BuildState).cursor % 256 = 0 := by
    show SP1200_SAMPLE_DATA_OFFSET % 256 = 0
    decide
  have hge0 : SP1200_SAMPLE_DATA_OFFSET ≤
      (⟨writeU16LE (writeU16LE (writeU16LE emptyBuf 0 SP1200_MAGIC) 2 l.length) 4 0,
        SP1200_SAMPLE_DATA_OFFSET⟩ : BuildState).cursor := Nat.le_refl _
  have hlt32cur : st.cursor < 4294967296 := by
    unfold SP1200_DISK_SIZE at hcap
    omega
  have hdlen := buildFold_len_le l _ st hfold hal0 hge0
  have hprops' : ∀ a ∈ l, a.metadata = none ∧ isValidBank a.bank = true ∧
      (1 ≤ a.padNumber ∧ a.padNumber ≤ 8) ∧ a.data.length / 2 < 4294967296 ∧
      (∀ c ∈ a.name, 0 < c ∧ c < 256) := by
    intro a ha
    obtain ⟨h1, h2, h3, h4, h5, h6, h7⟩ := hprops a ha
    have h8 := hdlen a ha
    unfold SP1200_DISK_SIZE at h8
    exact ⟨h1, h2, h3, by omega,
      fun c hc => ⟨(h4 c hc).1, by have := (h4 c hc).2; omega⟩⟩
  have hzero0 : ∀ k, k < (32 - 0) * SP1200_PAD_ENTRY_SIZE →
      (⟨writeU16LE (writeU16LE (writeU16LE emptyBuf 0 SP1200_MAGIC) 2 l.length) 4 0,
        SP1200_SAMPLE_DATA_OFFSET⟩ : BuildState).buf
        (SP1200_PAD_TABLE_OFFSET + 0 * SP1200_PAD_ENTRY_SIZE + k) = 0 := by
    intro k hk
    show writeU16LE (writeU16LE (writeU16LE emptyBuf 0 SP1200_MAGIC) 2 l.length) 4 0
      (SP1200_PAD_TABLE_OFFSET + 0 * SP1200_PAD_ENTRY_SIZE + k) = 0
    rw [writeU16LE_ne _ _ _ _ (by omega) (by omega),
      writeU16LE_ne _ _ _ _ (by omega) (by omega),
      writeU16LE_ne _ _ _ _ (by omega) (by omega)]
    rfl
  have hentry := buildFold_entry l _ st 0 hfold hal0 hge0 hlt32cur hprops'
    (fun i hi => by have := hcont i hi; omega) (by omega) hzero0
  have hdata := buildFold_data l _ st hfold hal0 hge0 hidx_all
  obtain ⟨F1all, F2all, Fmonoall⟩ := buildFold_frame l _ st hfold hal0 hge0 hidx_all
  have hhead : ∀ o, o < 6 → st.buf o =
      writeU16LE (writeU16LE (writeU16LE emptyBuf 0 SP1200_MAGIC) 2 l.length) 4 0 o := by
    intro o ho
    exact F2all o (by omega) (fun x hx => Or.inl (by
      have := hidx_all x hx
      omega))
  have hmagic : readU16LE st.buf 0 = SP1200_MAGIC := by
    rw [readU16LE_congr st.buf
      (writeU16LE (writeU16LE (writeU16LE emptyBuf 0 SP1200_MAGIC) 2 l.length) 4 0) 0
      (fun k hk => hhead _ (by omega))]
    rw [readU16LE_frame_u16 _ _ _ _ (Or.inl (by omega)),
      readU16LE_frame_u16 _ _ _ _ (Or.inl (by omega)), readU16LE_writeU16LE]
    decide
  have hcount : readU16LE st.buf 2 = l.length := by
    rw [readU16LE_congr st.buf
      (writeU16LE (writeU16LE (writeU16LE emptyBuf 0 SP1200_MAGIC) 2 l.length) 4 0) 2
      (fun k hk => hhead _ (by omega))]
    rw [readU16LE_frame_u16 _ _ _ _ (Or.inl (by omega)), readU16LE_writeU16LE]
    omega
  have himg : createDiskImage l = .ok st.buf := by
    unfold createDiskImage
    rw [hsort, hfold]
    have hred : (match (Except.ok st : Except String BuildState) with
        | Except.error e => (Except.error e : Except String Buf)
        | Except.ok st => if SP1200_DISK_SIZE < st.cursor
            then Except.error "Disk image exceeds maximum size" else Except.ok st.buf)
        = (if SP1200_DISK_SIZE < st.cursor
            then (Except.error "Disk image exceeds maximum size" : Except String Buf)
            else Except.ok st.buf) := rfl
    rw [hred, if_neg hcap]
  unfold buildAndParse
  rw [himg]
  have hred2 : (match (Except.ok st.buf : Except String Buf) with
      | Except.error e => (Except.error e : Except String SP1200Disk)
      | Except.ok b => parseSP1200Disk b) = parseSP1200Disk st.buf := rfl
  rw [hred2]
  unfold parseSP1200Disk
  rw [if_neg (by rw [hmagic]; exact fun hne => hne rfl), hcount]
  have hmap : (List.range l.length).map (parseDiskEntry st.buf) = l.map padView := by
    refine range_map_eq_of_view l.length _ l rfl ?_
    intro i hi
    have h5i := hentry i hi
    simp only [Nat.zero_add] at h5i
    obtain ⟨hN, hW, hO, hB, hP⟩ := h5i
    obtain ⟨ha1, ha2, ha3, ha4, ha5, ha6, ha7⟩ :=
      hprops (l.getD i defaultPad) (getD_mem_assign l i hi)
    simp only [parseDiskEntry, padView]
    rw [hN, hW, hO, hB, hP, ha5, bankOfIdx_bankIdx _ ha2]
    have hdata_i : (List.range ((l.getD i defaultPad).data.length / 2 * 2)).map
        (fun j => st.buf
          (cursorAt (⟨writeU16LE (writeU16LE (writeU16LE emptyBuf 0 SP1200_MAGIC) 2
              l.length) 4 0, SP1200_SAMPLE_DATA_OFFSET⟩ : BuildState).cursor l i + j))
        = (l.getD i defaultPad).data := by
      rw [show (l.getD i defaultPad).data.length / 2 * 2 = (l.getD i defaultPad).data.length
        by omega]
      refine range_map_eq_of_getD _ _ _ rfl ?_
      intro j hj
      rw [(hdata i hi).1 j hj]
      exact Nat.mod_eq_of_lt (ha7 _ (getD_mem _ j hj))
    rw [hdata_i, Nat.sub_add_cancel ha3.1]
  rw [hmap]

/-- C1 witness: two assignments on the contiguous slots A1, A2 round-trip. -/
theorem claim_C1_roundtrip_witness :
    buildAndParse [⟨"A", 1, [88], [5, 6], none⟩, ⟨"A", 2, [89], [7, 8], none⟩]
      = .ok ⟨[⟨"A", 1, [88], [5, 6], none⟩,
          ⟨"A", 2, [89], [7, 8], none⟩].map padView, []⟩ :=
  claim_C1_roundtrip
    [⟨"A", 1, [88], [5, 6], none⟩, ⟨"A", 2, [89], [7, 8], none⟩]
    (by decide) (by decide) (by decide)

/-! ## Layout geometry (claim C2) -/

theorem finalCursor_append :
    ∀ (t1 t2 : List SP1200PadAssignment) (c : Nat),
      finalCursor c (t1 ++ t2) = finalCursor (finalCursor c t1) t2 := by
  intro t1
  induction t1 with
  | nil => intro t2 c; rfl
  | cons a t ih =>
    intro t2 c
    simp only [List.cons_append, finalCursor]
    exact ih t2 _

theorem cursorAt_succ (c : Nat) (s : List SP1200PadAssignment) (i : Nat)
    (hi : i < s.length) (hal : c % 256 = 0) :
    cursorAt c s (i + 1)
      = alignUp256 (cursorAt c s i + (s.getD i defaultPad).data.length) := by
  have hgd : s.getD i defaultPad = s[i] := by
    rw [List.getD_eq_getElem?_getD, List.getElem?_eq_getElem hi]
    rfl
  rw [hgd]
  unfold cursorAt
  rw [List.take_succ, List.getElem?_eq_getElem hi]
  simp only [Option.toList_some]
  rw [finalCursor_append]
  have hala : finalCursor c (s.take i) % 256 = 0 := finalCursor_aligned _ _ hal
  simp only [finalCursor]
  rw [if_neg (by omega)]

set_option maxRecDepth 8192 in
/-- C2 (counterexample): when an assignment's data length is a multiple of 256,
the cursor advance `(cursor + length + 255) & ~255` equals `cursor + length`,
i.e. exactly where its end marker was just written, so the next sample's data
overwrites the marker.  With a 256-byte first sample, bytes 4352–4353 of the
image hold the second sample's data `9, 9`, not the marker `0, 128`. -/
theorem claim_C2_counterexample :
    (createDiskImage [⟨"A", 1, [], List.replicate 256 7, none⟩,
        ⟨"A", 2, [], [9, 9], none⟩]).toOption.map (fun b => (b 4352, b 4353))
      = some (9, 9) ∧ ((9, 9) : Nat × Nat) ≠ (0, 128) := by
  decide

/-- C2 (amended): in a successfully built image, the `i`-th sorted assignment's
data is copied byte for byte at the 256-byte-aligned cursor, the next cursor is
`alignUp256 (cursor + length)` (the next boundary past the data, not past the
marker), and the 0x8000 end marker written right after the data survives in the
final image whenever `length mod 256` is neither 0 (next sample starts on the
marker) nor 255 (next sample starts on its second byte). -/
theorem claim_C2_layout (l s : List SP1200PadAssignment) (b : Buf)
    (hs : sortAssignments l = s)
    (hidx : ∀ a ∈ s, padIdx a < 32)
    (hb : createDiskImage l = .ok b)
    (i : Nat) (hi : i < s.length) :
    cursorAt SP1200_SAMPLE_DATA_OFFSET s i % 256 = 0 ∧
    (∀ j, j < (s.getD i defaultPad).data.length →
      b (cursorAt SP1200_SAMPLE_DATA_OFFSET s i + j)
        = (s.getD i defaultPad).data.getD j 0 % 256) ∧
    cursorAt SP1200_SAMPLE_DATA_OFFSET s (i + 1)
      = alignUp256 (cursorAt SP1200_SAMPLE_DATA_OFFSET s i
          + (s.getD i defaultPad).data.length) ∧
    ((s.getD i defaultPad).data.length % 256 ≠ 0 →
     (s.getD i defaultPad).data.length % 256 ≠ 255 →
      b (cursorAt SP1200_SAMPLE_DATA_OFFSET s i
          + (s.getD i defaultPad).data.length) = 0 ∧
      b (cursorAt SP1200_SAMPLE_DATA_OFFSET s i
          + (s.getD i defaultPad).data.length + 1) = 128) := by
  unfold createDiskImage at hb
  rw [hs] at hb
  cases hfold : buildFold
      ⟨writeU16LE (writeU16LE (writeU16LE emptyBuf 0 SP1200_MAGIC) 2 l.length) 4 0,
        SP1200_SAMPLE_DATA_OFFSET⟩ s with
  | error e =>
    rw [hfold] at hb
    exact Except.noConfusion hb
  | ok st =>
    rw [hfold] at hb
    have hb2 : (if SP1200_DISK_SIZE < st.cursor
        then (Except.error "Disk image exceeds maximum size" : Except String Buf)
        else Except.ok st.buf) = .ok b := hb
    have hcneg : ¬ SP1200_DISK_SIZE < st.cursor := by
      intro hc
      rw [if_pos hc] at hb2
      exact Except.noConfusion hb2
    rw [if_neg hcneg] at hb2
    injection hb2 with hb3
    subst hb3
    have hal0 : (⟨writeU16LE (writeU16LE (writeU16LE emptyBuf 0 SP1200_MAGIC) 2
        l.length) 4 0, SP1200_SAMPLE_DATA_OFFSET⟩ : BuildState).cursor % 256 = 0 := by
      show SP1200_SAMPLE_DATA_OFFSET % 256 = 0
      decide
    have hge0 : SP1200_SAMPLE_DATA_OFFSET ≤
        (⟨writeU16LE (writeU16LE (writeU16LE emptyBuf 0 SP1200_MAGIC) 2 l.length) 4 0,
          SP1200_SAMPLE_DATA_OFFSET⟩ : BuildState).cursor := Nat.le_refl _
    have hdata := buildFold_data s _ st hfold hal0 hge0 hidx
    refine ⟨?_, ?_, ?_, ?_⟩
    · exact finalCursor_aligned (s.take i) _ (by decide)
    · intro j hj
      exact (hdata i hi).1 j hj
    · exact cursorAt_succ _ s i hi (by decide)
    · intro h1 h2
      exact (hdata i hi).2 h1 h2

/-- C2 witness: a one-sample disk (1 data byte) keeps its end marker at bytes
4097–4098 and the next cursor is the next 256-byte boundary, 4352. -/
theorem claim_C2_layout_witness :
    (createDiskImage [⟨"A", 1, [], [7], none⟩]).toOption.map
        (fun b => (b 4097, b 4098)) = some (0, 128)
      ∧ cursorAt SP1200_SAMPLE_DATA_OFFSET [⟨"A", 1, [], [7], none⟩] 1 = 4352 := by
  constructor
  · cases hb : createDiskImage [⟨"A", 1, [], [7], none⟩] with
    | error e =>
      have hok : exceptOk (createDiskImage [⟨"A", 1, [], [7], none⟩]) = true := by decide
      rw [hb] at hok
      exact absurd hok Bool.noConfusion
    | ok b =>
      have h := claim_C2_layout [⟨"A", 1, [], [7], none⟩] [⟨"A", 1, [], [7], none⟩] b
        (by decide) (by decide) hb 0 (by decide)
      obtain ⟨hm0, hm1⟩ := h.2.2.2 (by decide) (by decide)
      have e0 : cursorAt SP1200_SAMPLE_DATA_OFFSET [⟨"A", 1, [], [7], none⟩] 0
          + ([⟨"A", 1, [], [7], none⟩].getD 0 defaultPad).data.length = 4097 := by decide
      have e1 : cursorAt SP1200_SAMPLE_DATA_OFFSET [⟨"A", 1, [], [7], none⟩] 0
          + ([⟨"A", 1, [], [7], none⟩].getD 0 defaultPad).data.length + 1 = 4098 := by decide
      rw [e0] at hm0
      rw [e1] at hm1
      show some (b 4097, b 4098) = some (0, 128)
      rw [hm0, hm1]
  · decide

end SndPlayer
